import Mathlib

/-!
Verification of the Rectify repository against its specification.

The repository has two parts:

* Browser-side UI code present in the source tree: `CropperManager`
  (a lifecycle wrapper around the third-party Cropper.js widget) and
  `Overlays` (an SVG composition-guide renderer).  These are embedded
  below directly from the JavaScript source.

* A server-side session-scoped storage lifecycle core (PathResolver,
  ArtifactRegistry, SizeAccountant, RetentionSweeper, SessionGate,
  StorageService).  Its code is not in the available source tree, so it
  is modelled from the specification text; every such definition carries
  a doc comment starting with `Modelled from the spec:`.

Machine integers do not occur: the JavaScript numbers that matter to the
verified properties are exact small quantities, embedded as `Int`/`Rat`,
and the storage model counts bytes and seconds as `Nat`.
-/

/-! ## CropperManager (src/unnamed/part_000)

The JavaScript module keeps four pieces of module-level state:
`cropper` (the Cropper.js instance or null), `imageEl`, and the
cumulative flip scales `scaleX`, `scaleY`.  The third-party Cropper.js
instance is external; we model exactly the observable surface the
manager touches: the scale/rotation/aspect/src values the manager
writes into it, opaque payloads for the data getters, and an oracle
field for the `toBlob` outcome.  The `ready`/`crop` DOM callbacks and
the Cropper.js constructor options are UI concerns with no bearing on
the verified properties and are not modelled. -/

/-- Observable surface of a third-party Cropper.js instance.
`dataRounded`/`dataRaw` stand for `getData(true)`/`getData(false)`
payloads, `blobResult` is the oracle outcome of `getCroppedCanvas().toBlob`.
The `aspect` value stands for the number passed to `setAspectRatio`
(the JavaScript NaN free-crop marker is outside the embedded fragment). -/
structure CropperJS where
  dataRounded : Int
  dataRaw : Int
  canvasData : Int
  cropBoxData : Int
  scX : Int
  scY : Int
  turn : Int
  aspect : Int
  src : String
  blobResult : Option Int
deriving DecidableEq

/-- Module-level state of the CropperManager IIFE. -/
structure CMState where
  cropper : Option CropperJS
  imageEl : Option Int
  scaleX : Int
  scaleY : Int
deriving DecidableEq

namespace CropperManager

/-- The module's initial state: `cropper = null`, `imageEl = null`,
`scaleX = 1`, `scaleY = 1`. -/
def initialCM : CMState := ⟨none, none, 1, 1⟩

/-- Placeholder empty source string of a fresh Cropper.js instance. -/
def emptySrc : String := ""

/-- A fresh Cropper.js instance as produced by `new Cropper(img, …)`:
identity transforms, abstract data payloads. -/
def newCropper (img : Int) : CropperJS :=
  ⟨img, img, img, img, 1, 1, 0, 0, emptySrc, none⟩

/-- `destroy()`: destroys any existing instance and clears `cropper`
and `imageEl`; the scale variables are left as they are. -/
def destroy (st : CMState) : CMState :=
  ⟨none, none, st.scaleX, st.scaleY⟩

/-- `init(img, onReady)`: destroys any existing instance, stores the
image element, resets both scales to 1 and attaches a new Cropper. -/
def init (st : CMState) (img : Int) : CMState :=
  let _ := destroy st
  ⟨some (newCropper img), some img, 1, 1⟩

/-- `getData(rounded)`: null when no instance is active. -/
def getData (st : CMState) (rounded : Bool) : Option Int :=
  match st.cropper with
  | none => none
  | some c => some (if rounded then c.dataRounded else c.dataRaw)

/-- `getCanvasData()`: null when no instance is active. -/
def getCanvasData (st : CMState) : Option Int :=
  match st.cropper with
  | none => none
  | some c => some c.canvasData

/-- `getCropBoxData()`: null when no instance is active. -/
def getCropBoxData (st : CMState) : Option Int :=
  match st.cropper with
  | none => none
  | some c => some c.cropBoxData

/-- `rotate(degrees)`: no-op when no instance is active, otherwise the
rotation is applied to the instance. -/
def rotate (st : CMState) (degrees : Int) : CMState :=
  match st.cropper with
  | none => st
  | some c => ⟨some { c with turn := c.turn + degrees }, st.imageEl, st.scaleX, st.scaleY⟩

/-- `flipHorizontal()`: negates `scaleX` and pushes it to the instance;
no-op when no instance is active. -/
def flipHorizontal (st : CMState) : CMState :=
  match st.cropper with
  | none => st
  | some c =>
    let sx := -st.scaleX
    ⟨some { c with scX := sx }, st.imageEl, sx, st.scaleY⟩

/-- `flipVertical()`: negates `scaleY` and pushes it to the instance;
no-op when no instance is active. -/
def flipVertical (st : CMState) : CMState :=
  match st.cropper with
  | none => st
  | some c =>
    let sy := -st.scaleY
    ⟨some { c with scY := sy }, st.imageEl, st.scaleX, sy⟩

/-- `reset()`: resets both scale variables to 1 and the instance to its
initial transforms; no-op when no instance is active. -/
def reset (st : CMState) : CMState :=
  match st.cropper with
  | none => st
  | some c => ⟨some { c with scX := 1, scY := 1, turn := 0 }, st.imageEl, 1, 1⟩

/-- `setAspectRatio(ratio)` from the source, under a shortened Lean
name: no-op when no instance is active. -/
def setAspect (st : CMState) (ratio : Int) : CMState :=
  match st.cropper with
  | none => st
  | some c => ⟨some { c with aspect := ratio }, st.imageEl, st.scaleX, st.scaleY⟩

/-- Error message of the rejected promise when no instance is active. -/
def noCropperMsg : String := "No active cropper instance."

/-- Error message of the rejected promise when `toBlob` yields null. -/
def toBlobFailMsg : String := "Canvas toBlob failed."

/-- `getCroppedBlob(type, quality)`: the returned promise, as an
`Except`: rejected with an error when no instance is active or when
`toBlob` produces null, resolved with the blob otherwise. -/
def getCroppedBlob (st : CMState) (_ty : String) (_quality : Int) : Except String Int :=
  match st.cropper with
  | none => Except.error noCropperMsg
  | some c =>
    match c.blobResult with
    | some b => Except.ok b
    | none => Except.error toBlobFailMsg

/-- `replace(url)`: no-op when no instance is active. -/
def replace (st : CMState) (url : String) : CMState :=
  match st.cropper with
  | none => st
  | some c => ⟨some { c with src := url }, st.imageEl, st.scaleX, st.scaleY⟩

/-- `isActive()`. -/
def isActive (st : CMState) : Bool :=
  st.cropper.isSome

/-- The state-changing operations of the public CropperManager API. -/
inductive CMOp
  | opInit (img : Int)
  | opDestroy
  | opRotate (d : Int)
  | opFlipH
  | opFlipV
  | opReset
  | opSetAspect (r : Int)
  | opReplace (url : String)
deriving DecidableEq

/-- One public API call. -/
def stepCM (st : CMState) : CMOp → CMState
  | CMOp.opInit img => init st img
  | CMOp.opDestroy => destroy st
  | CMOp.opRotate d => rotate st d
  | CMOp.opFlipH => flipHorizontal st
  | CMOp.opFlipV => flipVertical st
  | CMOp.opReset => reset st
  | CMOp.opSetAspect r => setAspect st r
  | CMOp.opReplace url => replace st url

/-- The module state reached after a sequence of API calls from load time. -/
def runCM (ops : List CMOp) : CMState :=
  ops.foldl stepCM initialCM

end CropperManager

/-! ## Overlays (src/static/js/overlays.js)

The renderer builds SVG fragments by string concatenation.  JavaScript
numbers are embedded as exact rationals (`ℚ`); the decimal formatting
of `toString` and the insignificant whitespace of multi-line template
literals differ from JavaScript, which none of the verified properties
depend on.  The module-level mutable `STROKE_COLOR` (set via
`setColor`) is threaded through as an explicit `color` argument;
`strokeColorDefault` is its load-time value.  Because `registry` is a
plain object literal, the lookup `registry[name]` walks the prototype
chain: names inherited from `Object.prototype` (e.g. `toString`,
`__proto__`) are truthy there, so `render` is modelled with a three-way
lookup (own key / inherited / undefined) and a result type that can
carry non-string values and a thrown `TypeError`. -/

namespace Overlays

/-- Load-time value of `STROKE_COLOR`. -/
def strokeColorDefault : String := "rgba(108, 99, 255, 0.7)"

/-- `STROKE_WIDTH`. -/
def strokeWidth : ℚ := 1.5

/-- Decimal rendering of a JavaScript number (exact rational here). -/
def qs (q : ℚ) : String := toString q

/-- `line(x1, y1, x2, y2, sw)`; call sites that omit `sw` in the source
pass `strokeWidth` here. -/
def line (color : String) (x1 y1 x2 y2 sw : ℚ) : String :=
  "<line x1=\"" ++ qs x1 ++ "\" y1=\"" ++ qs y1 ++ "\" x2=\"" ++ qs x2 ++
    "\" y2=\"" ++ qs y2 ++ "\" stroke=\"" ++ color ++ "\" stroke-width=\"" ++
    qs sw ++ "\" />"

/-- `circle(cx, cy, r)`. -/
def circle (color : String) (cx cy r : ℚ) : String :=
  "<circle cx=\"" ++ qs cx ++ "\" cy=\"" ++ qs cy ++ "\" r=\"" ++ qs r ++
    "\" fill=\"none\" stroke=\"" ++ color ++ "\" stroke-width=\"" ++
    qs strokeWidth ++ "\" />"

/-- Overlay 1: rule of thirds. -/
def ruleOfThirds (color : String) (w h : ℚ) : String :=
  let x1 := w / 3
  let x2 := (2 * w) / 3
  let y1 := h / 3
  let y2 := (2 * h) / 3
  let svg := "<g class=\"overlay-rule-of-thirds\">"
  let svg := svg ++ line color x1 0 x1 h strokeWidth
  let svg := svg ++ line color x2 0 x2 h strokeWidth
  let svg := svg ++ line color 0 y1 w y1 strokeWidth
  let svg := svg ++ line color 0 y2 w y2 strokeWidth
  let svg := [x1, x2].foldl (fun acc x =>
    [y1, y2].foldl (fun acc2 y => acc2 ++ circle color x y 4) acc) svg
  svg ++ "</g>"

/-- Overlay 2: golden spiral.  The source also declares `cx`, `cy`,
`rw`, `rh`, `sx`, `sy` and runs a loop shrinking `sw`/`sh` by phi; none
of those values feed into the returned string and they are omitted. -/
def goldenSpiral (color : String) (w h : ℚ) : String :=
  let phi : ℚ := 1.618033988749895
  let gx1 := w / phi
  let gx2 := w - w / phi
  let gy1 := h / phi
  let gy2 := h - h / phi
  let pt := fun (a b : ℚ) => qs a ++ " " ++ qs b
  let svg := "<g class=\"overlay-golden-spiral\">"
  let svg := svg ++ line color gx1 0 gx1 h 0.8
  let svg := svg ++ line color gx2 0 gx2 h 0.8
  let svg := svg ++ line color 0 gy1 w gy1 0.8
  let svg := svg ++ line color 0 gy2 w gy2 0.8
  let path := "M " ++ pt (w * 0.975) (h * 0.025) ++
    " C " ++ pt (w * 0.975) (h * 0.55) ++ ", " ++ pt (w * 0.72) (h * 0.975) ++ ", " ++ pt (w * 0.38) (h * 0.975) ++
    " C " ++ pt (w * 0.15) (h * 0.975) ++ ", " ++ pt (w * 0.025) (h * 0.78) ++ ", " ++ pt (w * 0.025) (h * 0.58) ++
    " C " ++ pt (w * 0.025) (h * 0.42) ++ ", " ++ pt (w * 0.14) (h * 0.30) ++ ", " ++ pt (w * 0.28) (h * 0.30) ++
    " C " ++ pt (w * 0.40) (h * 0.30) ++ ", " ++ pt (w * 0.48) (h * 0.39) ++ ", " ++ pt (w * 0.48) (h * 0.48) ++
    " C " ++ pt (w * 0.48) (h * 0.55) ++ ", " ++ pt (w * 0.43) (h * 0.60) ++ ", " ++ pt (w * 0.38) (h * 0.60) ++
    " C " ++ pt (w * 0.34) (h * 0.60) ++ ", " ++ pt (w * 0.31) (h * 0.57) ++ ", " ++ pt (w * 0.31) (h * 0.53)
  let svg := svg ++ ("<path d=\"" ++ path ++ "\" fill=\"none\" stroke=\"" ++ color ++
    "\" stroke-width=\"" ++ qs strokeWidth ++ "\" />")
  svg ++ "</g>"

/-- Overlay 3: phi grid. -/
def phiGrid (color : String) (w h : ℚ) : String :=
  let phi : ℚ := 1.618033988749895
  let x1 := w / (1 + phi)
  let x2 := w - x1
  let y1 := h / (1 + phi)
  let y2 := h - y1
  let svg := "<g class=\"overlay-phi-grid\">"
  let svg := svg ++ line color x1 0 x1 h strokeWidth
  let svg := svg ++ line color x2 0 x2 h strokeWidth
  let svg := svg ++ line color 0 y1 w y1 strokeWidth
  let svg := svg ++ line color 0 y2 w y2 strokeWidth
  svg ++ "</g>"

/-- Overlay 4: golden triangles.  The source computes
`d = Math.sqrt(w*w + h*h)` and uses only `d*d`, embedded exactly as
`w*w + h*h`. -/
def goldenTriangles (color : String) (w h : ℚ) : String :=
  let svg := "<g class=\"overlay-golden-triangles\">"
  let svg := svg ++ line color 0 0 w h strokeWidth
  let d2 := w * w + h * h
  let px1 := (w * h * h) / d2
  let py1 := (w * w * h) / d2
  let svg := svg ++ line color w 0 (w - px1) py1 strokeWidth
  let svg := svg ++ line color 0 h px1 (h - py1) strokeWidth
  svg ++ "</g>"

/-- Overlay 5: diagonal method. -/
def diagonalMethod (color : String) (w h : ℚ) : String :=
  let svg := "<g class=\"overlay-diagonal-method\">"
  let minDim := min w h
  let svg := svg ++ line color 0 0 minDim minDim strokeWidth
  let svg := svg ++ line color w 0 (w - minDim) minDim strokeWidth
  let svg := svg ++ line color 0 h minDim (h - minDim) strokeWidth
  let svg := svg ++ line color w h (w - minDim) (h - minDim) strokeWidth
  svg ++ "</g>"

/-- Overlay 6: dynamic symmetry.  Division is rational field division;
the source's `w*h/w` expressions are embedded verbatim (for `w = 0`
JavaScript would produce NaN strings, which no verified property
inspects). -/
def dynamicSymmetry (color : String) (w h : ℚ) : String :=
  let svg := "<g class=\"overlay-dynamic-symmetry\">"
  let svg := svg ++ line color 0 0 w h 1
  let svg := svg ++ line color w 0 0 h 1
  let d2 := w * w + h * h
  let rx := (w * h * h) / d2
  let ry := (w * w * h) / d2
  let _ := rx
  let svg := svg ++ line color 0 0 (ry * w / h) ry 0.8
  let svg := svg ++ line color w 0 (w - ry * w / h) ry 0.8
  let svg := svg ++ line color 0 h (ry * w / h) (h - ry) 0.8
  let svg := svg ++ line color w h (w - ry * w / h) (h - ry) 0.8
  let svg := svg ++ line color 0 h w (h - w * h / w) 0.8
  let svg := svg ++ line color w 0 0 (w * h / w) 0.8
  let phi : ℚ := 1.618033988749895
  let gx := w / phi
  let gy := h / phi
  let svg := svg ++ line color gx 0 gx h 0.5
  let svg := svg ++ line color (w - gx) 0 (w - gx) h 0.5
  let svg := svg ++ line color 0 gy w gy 0.5
  let svg := svg ++ line color 0 (h - gy) w (h - gy) 0.5
  svg ++ "</g>"

/-- Overlay 7: diamond grid. -/
def diamondGrid (color : String) (w h : ℚ) : String :=
  let cx := w / 2
  let cy := h / 2
  let svg := "<g class=\"overlay-diamond-grid\">"
  let svg := svg ++ ("<polygon points=\"" ++ qs cx ++ ",0 " ++ qs w ++ "," ++ qs cy ++
    " " ++ qs cx ++ "," ++ qs h ++ " 0," ++ qs cy ++ "\" fill=\"none\" stroke=\"" ++
    color ++ "\" stroke-width=\"" ++ qs strokeWidth ++ "\" />")
  let s : ℚ := 0.5
  let svg := svg ++ ("<polygon points=\"" ++ qs cx ++ "," ++ qs (cy - cy * s) ++
    " " ++ qs (cx + cx * s) ++ "," ++ qs cy ++ " " ++ qs cx ++ "," ++ qs (cy + cy * s) ++
    " " ++ qs (cx - cx * s) ++ "," ++ qs cy ++ "\" fill=\"none\" stroke=\"" ++
    color ++ "\" stroke-width=\"1\" />")
  let svg := svg ++ line color cx 0 cx h 0.5
  let svg := svg ++ line color 0 cy w cy 0.5
  svg ++ "</g>"

/-- Overlay 8: vanishing point. -/
def vanishingPoint (color : String) (w h : ℚ) : String :=
  let cx := w / 2
  let cy := h / 2
  let svg := "<g class=\"overlay-vanishing-point\">"
  let svg := svg ++ line color 0 0 cx cy strokeWidth
  let svg := svg ++ line color w 0 cx cy strokeWidth
  let svg := svg ++ line color 0 h cx cy strokeWidth
  let svg := svg ++ line color w h cx cy strokeWidth
  let svg := svg ++ line color cx 0 cx cy 0.8
  let svg := svg ++ line color cx h cx cy 0.8
  let svg := svg ++ line color 0 cy cx cy 0.8
  let svg := svg ++ line color w cy cx cy 0.8
  let svg := svg ++ circle color cx cy 6
  let svg := svg ++ circle color cx cy 2
  svg ++ "</g>"

/-- Overlay 9: center cross. -/
def centerCross (color : String) (w h : ℚ) : String :=
  let cx := w / 2
  let cy := h / 2
  let svg := "<g class=\"overlay-center-cross\">"
  let svg := svg ++ line color cx 0 cx h strokeWidth
  let svg := svg ++ line color 0 cy w cy strokeWidth
  let svg := svg ++ circle color cx cy 5
  svg ++ "</g>"

/-- Overlay 10: quadrants. -/
def quadrants (color : String) (w h : ℚ) : String :=
  let cx := w / 2
  let cy := h / 2
  let svg := "<g class=\"overlay-quadrants\">"
  let svg := svg ++ line color cx 0 cx h strokeWidth
  let svg := svg ++ line color 0 cy w cy strokeWidth
  let svg := svg ++ line color (w / 4) 0 (w / 4) h 0.5
  let svg := svg ++ line color ((3 * w) / 4) 0 ((3 * w) / 4) h 0.5
  let svg := svg ++ line color 0 (h / 4) w (h / 4) 0.5
  let svg := svg ++ line color 0 ((3 * h) / 4) w ((3 * h) / 4) 0.5
  svg ++ "</g>"

/-- The keys of the public overlay registry object, in source order. -/
def overlayKeys : List String :=
  [r"rule-of-thirds", r"golden-spiral", r"phi-grid", r"golden-triangles",
   r"diagonal-method", r"dynamic-symmetry", r"diamond-grid",
   r"vanishing-point", r"center-cross", r"quadrants"]

/-- Own-property lookup on the `registry` object literal: the ten
overlay entries it declares itself.  The full JavaScript property
lookup `registry[name]` also walks the prototype chain — see
`registryLookup` below. -/
def registryFind (name : String) : Option (String → ℚ → ℚ → String) :=
  if name = "rule-of-thirds" then some ruleOfThirds
  else if name = "golden-spiral" then some goldenSpiral
  else if name = "phi-grid" then some phiGrid
  else if name = "golden-triangles" then some goldenTriangles
  else if name = "diagonal-method" then some diagonalMethod
  else if name = "dynamic-symmetry" then some dynamicSymmetry
  else if name = "diamond-grid" then some diamondGrid
  else if name = "vanishing-point" then some vanishingPoint
  else if name = "center-cross" then some centerCross
  else if name = "quadrants" then some quadrants
  else none

/-- The property names the `registry` object literal inherits from
`Object.prototype` in a browser (including the Annex-B accessors and
legacy getter/setter helpers): for these, `registry[name]` is a truthy
inherited value, not `undefined`. -/
def protoProps : List String :=
  [r"constructor", r"hasOwnProperty", r"isPrototypeOf",
   r"propertyIsEnumerable", r"toLocaleString", r"toString", r"valueOf",
   r"__defineGetter__", r"__defineSetter__", r"__lookupGetter__",
   r"__lookupSetter__", r"__proto__"]

/-- A JavaScript value as returned by `render` once the prototype chain
is taken into account: a string, a boolean, `undefined`, or some other
(non-string) object such as the registry itself or a `Number`
wrapper. -/
inductive JsVal
  | str (s : String)
  | boolean (b : Bool)
  | undef
  | object
deriving DecidableEq

/-- The outcome of one `render` call: a returned value or a thrown
`TypeError`. -/
inductive RenderResult
  | value (v : JsVal)
  | typeError
deriving DecidableEq

/-- The empty string returned by the `name === "none" || !registry[name]`
guard. -/
def emptyOut : String := ""

/-- What `Object.prototype.toString` returns for a plain object
receiver. -/
def objObjStr : String := "[object Object]"

/-- The result of `registry[name](width, height)` when `name` is
inherited from `Object.prototype`: the receiver is the registry object
and both arguments are numbers, so the outcome does not depend on their
values. `toString`/`toLocaleString` yield `"[object Object]"`; `valueOf`
returns the receiver and `constructor` a `Number` wrapper (non-string
objects); `hasOwnProperty`/`isPrototypeOf`/`propertyIsEnumerable` are
false for a numeric argument (no own key of the registry is the decimal
string of a number); the `__lookupGetter__`/`__lookupSetter__` helpers
return `undefined`; `__defineGetter__`/`__defineSetter__` throw a
`TypeError` because the second argument is not callable, and
`__proto__` reads as `Object.prototype`, which is truthy but not
callable, so the call throws a `TypeError`. -/
def protoCall (name : String) : RenderResult :=
  if name = "toString" then RenderResult.value (JsVal.str objObjStr)
  else if name = "toLocaleString" then RenderResult.value (JsVal.str objObjStr)
  else if name = "valueOf" then RenderResult.value JsVal.object
  else if name = "constructor" then RenderResult.value JsVal.object
  else if name = "hasOwnProperty" then RenderResult.value (JsVal.boolean false)
  else if name = "isPrototypeOf" then RenderResult.value (JsVal.boolean false)
  else if name = "propertyIsEnumerable" then RenderResult.value (JsVal.boolean false)
  else if name = "__lookupGetter__" then RenderResult.value JsVal.undef
  else if name = "__lookupSetter__" then RenderResult.value JsVal.undef
  else RenderResult.typeError

/-- The three-way outcome of the JavaScript lookup `registry[name]`:
an own overlay entry, a truthy value inherited from `Object.prototype`,
or `undefined`. -/
inductive Lookup
  | own (f : String → ℚ → ℚ → String)
  | inherited
  | undef

/-- The JavaScript property lookup `registry[name]`, prototype chain
included. -/
def registryLookup (name : String) : Lookup :=
  match registryFind name with
  | some f => Lookup.own f
  | none => if name ∈ protoProps then Lookup.inherited else Lookup.undef

/-- `render(name, width, height)`: returns `""` when the name is
`"none"` or `registry[name]` is falsy (`undefined`); otherwise calls
`registry[name](width, height)` — the registered generator for the ten
own keys, an inherited `Object.prototype` member (which may return a
non-SVG value or throw) for inherited names. -/
def render (color : String) (name : String) (w h : ℚ) : RenderResult :=
  if name = "none" then RenderResult.value (JsVal.str emptyOut)
  else
    match registryLookup name with
    | Lookup.undef => RenderResult.value (JsVal.str emptyOut)
    | Lookup.own f => RenderResult.value (JsVal.str (f color w h))
    | Lookup.inherited => protoCall name

/-- Fixture: the inherited name `toString`. -/
def toStringName : String := "toString"

/-- Fixture: the inherited accessor name `__proto__`. -/
def protoName : String := "__proto__"

/-- Fixture: the registry key `rule-of-thirds`. -/
def ruleKey : String := "rule-of-thirds"

end Overlays

/-! ## Storage lifecycle core

The session-scoped storage lifecycle manager (spec §2–§6) is server-side
code of this repository that is absent from the available source tree —
only its configuration surface (README table) and its HTTP callers
(`app.js` hitting `/api/download/<session_id>/<filename>`) are visible.
Every definition in this section is therefore modelled from the
specification text, as its doc comment records. -/

namespace StorageCore

/-- Modelled from the spec: the missing `config.py` values consumed by
the core (§6): `MAX_STORAGE_MB`, `STORAGE_WARN_PERCENT`,
`RETENTION_SECONDS` (all read once, immutable). -/
structure Config where
  maxStorageMB : ℕ
  warnPercent : ℕ
  retentionSeconds : ℕ
deriving DecidableEq

/-- Modelled from the spec: the missing Artifact record (§3): one
immutable file, `size_bytes` fixed at registration time. -/
structure Artifact where
  filename : String
  sizeBytes : ℕ
  createdAt : ℕ
deriving DecidableEq

/-- Modelled from the spec: the missing Session record (§3): artifacts
in insertion order, retention measured from `last_touched_at`,
`pin_count ≥ 0`. -/
structure Session where
  createdAt : ℕ
  lastTouchedAt : ℕ
  artifacts : List Artifact
  pinCount : ℕ
deriving DecidableEq

/-- Modelled from the spec: the shared mutable state of the missing
core (§5): the ArtifactRegistry index (association list in insertion
order), the SizeAccountant running total, and the on-disk files
(`(session_id, filename)` keyed, with byte size). -/
structure CoreState where
  registry : List (String × Session)
  total : ℕ
  disk : List ((String × String) × ℕ)
deriving DecidableEq

/-- Modelled from the spec: process start: empty registry, zero total,
empty storage root. -/
def initState : CoreState := ⟨[], 0, []⟩

/-- Modelled from the spec: registry lookup of a session by id (first
matching entry of the index). -/
def assocFind : List (String × Session) → String → Option Session
  | [], _ => none
  | p :: t, sid => if p.fst = sid then some p.snd else assocFind t sid

/-- Modelled from the spec: in-place update of the (first) registry
entry of a session. -/
def updateFirst : List (String × Session) → String → Session → List (String × Session)
  | [], _, _ => []
  | p :: t, sid, s => if p.fst = sid then (sid, s) :: t else p :: updateFirst t sid s

/-- Modelled from the spec: total registered bytes of one session. -/
def sessionSize (s : Session) : ℕ := (s.artifacts.map Artifact.sizeBytes).sum

/-- Modelled from the spec: Σ `artifact.size_bytes` over a registry
fragment. -/
def sumSessions (l : List (String × Session)) : ℕ :=
  (l.map (fun p => sessionSize p.snd)).sum

/-- Modelled from the spec: Σ `artifact.size_bytes` over all registered
artifacts — the value `SizeAccountant.total` must track (§3). -/
def registrySum (st : CoreState) : ℕ := sumSessions st.registry

/-- Modelled from the spec: `SizeAccountant.totalBytes()` (§4.3) —
the incrementally maintained running total. -/
def totalBytes (st : CoreState) : ℕ := st.total

/-- Modelled from the spec: the warn line in bytes,
`MAX_STORAGE_MB * STORAGE_WARN_PERCENT / 100` (§4.3) with the
megabyte-to-byte conversion fixed by §8's scenario
(`MAX_STORAGE_MB = 1`, 80 % → an 800 KB warn line, decimal units). -/
def warnThresholdBytes (cfg : Config) : ℕ :=
  cfg.maxStorageMB * 1000000 * cfg.warnPercent / 100

/-- Modelled from the spec: `SizeAccountant.isOverWarnThreshold()`
(§4.3). -/
def isOverWarnThreshold (cfg : Config) (st : CoreState) : Bool :=
  decide (warnThresholdBytes cfg < st.total)

/-- Modelled from the spec: PathResolver failure (§4.1, §7). -/
inductive PathError
  | invalidName
deriving DecidableEq

/-- Modelled from the spec: the filename allow-list character class of
the missing PathResolver (§4.1): alphanumerics plus `.`, `-`, `_` — in
particular no path separators and no control bytes. -/
def validFilenameChar (c : Char) : Bool :=
  c.isAlphanum || c == '.' || c == '-' || c == '_'

/-- Modelled from the spec: the character class of a well-formed
session token (§4.1, §4.6): alphanumerics plus `-`. -/
def validTokenChar (c : Char) : Bool :=
  c.isAlphanum || c == '-'

/-- Modelled from the spec: the filename allow-list of §4.1 — allow-list
character class, no leading dot, bounded (255) nonzero length. -/
def validFilename (f : String) : Bool :=
  (!f.isEmpty) && decide (f.length ≤ 255) &&
    decide (f.data.head? ≠ some '.') && f.data.all validFilenameChar

/-- Modelled from the spec: well-formedness of a `session_id` token
(§4.1): nonempty, bounded length, token character class. -/
def validToken (sid : String) : Bool :=
  (!sid.isEmpty) && decide (sid.length ≤ 64) && sid.data.all validTokenChar

/-- Path separator used when composing the final path. -/
def sep : String := "/"

/-- Modelled from the spec: `PathResolver.resolve(session_id, filename)`
(§4.1): validates both components, then composes
`root/session_id/filename`; a pure function with no filesystem
effect (purity is by construction in this embedding). -/
def resolve (root sid f : String) : Except PathError String :=
  if validToken sid && validFilename f then
    Except.ok (root ++ sep ++ sid ++ sep ++ f)
  else Except.error PathError.invalidName

/-- Modelled from the spec: the error taxonomy surfaced by the façade
(§7). -/
inductive StorageError
  | invalidName
  | notFound
  | ioFailure
deriving DecidableEq

/-- Modelled from the spec: `ArtifactRegistry.register` (§4.2): creates
the session if absent (fresh sessions start unpinned), appends the
artifact, updates `last_touched_at`, and updates the SizeAccountant in
the same mutual-exclusion step. -/
def register (st : CoreState) (sid filename : String) (size now : ℕ) : CoreState :=
  let a : Artifact := ⟨filename, size, now⟩
  match assocFind st.registry sid with
  | some s =>
      ⟨updateFirst st.registry sid ⟨s.createdAt, now, s.artifacts ++ [a], s.pinCount⟩,
       st.total + size, st.disk⟩
  | none =>
      ⟨st.registry ++ [(sid, ⟨now, now, [a], 0⟩)], st.total + size, st.disk⟩

/-- Modelled from the spec: `ArtifactRegistry.lookup` (§4.2). -/
def lookupArtifact (st : CoreState) (sid f : String) : Option Artifact :=
  match assocFind st.registry sid with
  | none => none
  | some s => s.artifacts.find? (fun a => decide (a.filename = f))

/-- Modelled from the spec: `StorageService.store` (§4.6): the external
collaborator first writes bytes to disk (on failure a partial file of
`pSize` bytes), then on success the artifact is registered; on failure
the partial file is removed and no registry entry is created.
`writeOk` is the outcome of the external write. -/
def store (st : CoreState) (sid filename : String) (size now : ℕ)
    (writeOk : Bool) (pSize : ℕ) : CoreState × Except StorageError Artifact :=
  let written : CoreState :=
    ⟨st.registry, st.total, st.disk ++ [((sid, filename), if writeOk then size else pSize)]⟩
  if writeOk then
    (register written sid filename size now, Except.ok ⟨filename, size, now⟩)
  else
    (⟨written.registry, written.total,
      written.disk.filter (fun e => decide (e.fst ≠ (sid, filename)))⟩,
     Except.error StorageError.ioFailure)

/-- Modelled from the spec: session destruction (§3 lifecycle, §4.4):
all the session's artifact files unlinked, the registry entry removed
in the same step, the size accounted back down. -/
def destroySession (st : CoreState) (sid : String) : CoreState :=
  match assocFind st.registry sid with
  | none => st
  | some s =>
      ⟨st.registry.filter (fun p => decide (p.fst ≠ sid)),
       st.total - sessionSize s,
       st.disk.filter (fun e =>
         decide (¬ (e.fst.fst = sid ∧ e.fst.snd ∈ s.artifacts.map Artifact.filename)))⟩

/-- Modelled from the spec: `SessionGate.pin` (§4.5): raises the
session's `pin_count`. -/
def pinSession (st : CoreState) (sid : String) : CoreState :=
  match assocFind st.registry sid with
  | none => st
  | some s =>
      ⟨updateFirst st.registry sid ⟨s.createdAt, s.lastTouchedAt, s.artifacts, s.pinCount + 1⟩,
       st.total, st.disk⟩

/-- Modelled from the spec: `SessionGate` release (§4.5): decrements the
session's `pin_count` on handle disposal. -/
def releaseSession (st : CoreState) (sid : String) : CoreState :=
  match assocFind st.registry sid with
  | none => st
  | some s =>
      ⟨updateFirst st.registry sid ⟨s.createdAt, s.lastTouchedAt, s.artifacts, s.pinCount - 1⟩,
       st.total, st.disk⟩

/-- Modelled from the spec: `StorageService.open` (§4.6): resolves the
path, then pins the session and yields the path for streaming;
`NotFound` for an unknown session or filename, `InvalidName` for a
malformed name. -/
def openFile (st : CoreState) (root sid filename : String) :
    CoreState × Except StorageError String :=
  match resolve root sid filename with
  | Except.error _ => (st, Except.error StorageError.invalidName)
  | Except.ok p =>
    match assocFind st.registry sid with
    | none => (st, Except.error StorageError.notFound)
    | some s =>
      if filename ∈ s.artifacts.map Artifact.filename then (pinSession st sid, Except.ok p)
      else (st, Except.error StorageError.notFound)

/-- Modelled from the spec: the expiry predicate of §4.4:
`now - last_touched_at > RETENTION_SECONDS`. -/
def expired (cfg : Config) (now : ℕ) (s : Session) : Bool :=
  decide (cfg.retentionSeconds < now - s.lastTouchedAt)

/-- Modelled from the spec: one expiry-phase visit (§4.4 phase 1, §4.5):
destroy the visited session when it is expired and not pinned. -/
def expiryStep (cfg : Config) (now : ℕ) (acc : CoreState) (p : String × Session) : CoreState :=
  if expired cfg now p.snd && decide (p.snd.pinCount = 0) then destroySession acc p.fst else acc

/-- Modelled from the spec: the expiry phase (§4.4 phase 1): visit every
session of the registry snapshot, destroying the expired unpinned
ones, unconditionally on storage usage. -/
def expiryPhase (cfg : Config) (now : ℕ) (st : CoreState) : CoreState :=
  st.registry.foldl (expiryStep cfg now) st

/-- Modelled from the spec: eviction candidacy (§4.4 phase 2, §4.5):
only sessions with `pin_count = 0`. -/
def evictableB (p : String × Session) : Bool :=
  decide (p.snd.pinCount = 0)

/-- Modelled from the spec: comparison step selecting the session with
the least `last_touched_at` (ties keep the earlier entry). -/
def pickOlder (best p : String × Session) : String × Session :=
  if p.snd.lastTouchedAt < best.snd.lastTouchedAt then p else best

/-- Modelled from the spec: the single oldest non-pinned session
(§4.4 phase 2, via `sessionsOrderedByLastTouched`). -/
def oldestEvictable (st : CoreState) : Option (String × Session) :=
  match st.registry.filter evictableB with
  | [] => none
  | h :: t => some (t.foldl pickOlder h)

/-- Modelled from the spec: the pressure-phase loop (§4.4 phase 2):
while still over the warn threshold and an evictable session remains,
destroy the single oldest one and re-check.  The loop is embedded with
a fuel bound; every iteration removes a session, so fuel equal to the
session count is enough (proved where used).  The returned list is the
destruction trace in order. -/
def pressureSteps (cfg : Config) : ℕ → CoreState → List (String × Session) × CoreState
  | 0, st => ([], st)
  | Nat.succ fuel, st =>
    if isOverWarnThreshold cfg st then
      match oldestEvictable st with
      | none => ([], st)
      | some q =>
        let r := pressureSteps cfg fuel (destroySession st q.fst)
        (q :: r.fst, r.snd)
    else ([], st)

/-- Modelled from the spec: the pressure phase (§4.4 phase 2). -/
def pressurePhase (cfg : Config) (st : CoreState) : CoreState :=
  (pressureSteps cfg st.registry.length st).snd

/-- Modelled from the spec: one sweep cycle of the RetentionSweeper
(§4.4): the expiry phase followed by the pressure phase. -/
def sweep (cfg : Config) (now : ℕ) (st : CoreState) : CoreState :=
  pressurePhase cfg (expiryPhase cfg now st)

/-- Folding destruction over a list of session ids (used to state the
pressure-phase trace properties). -/
def destroyList (st : CoreState) (sids : List String) : CoreState :=
  sids.foldl destroySession st

/-- Modelled from the spec: the operations of §8's accounting invariant
("sequences of `store`/sweep operations"). -/
inductive Op
  | opStore (sid filename : String) (size now : ℕ) (writeOk : Bool) (pSize : ℕ)
  | opSweep (now : ℕ)
deriving DecidableEq

/-- Modelled from the spec: applying one store/sweep operation. -/
def applyOp (cfg : Config) (st : CoreState) : Op → CoreState
  | Op.opStore sid f size now ok p => (store st sid f size now ok p).fst
  | Op.opSweep now => sweep cfg now st

/-- Modelled from the spec: the state after a sequence of store/sweep
operations from process start. -/
def runOps (cfg : Config) (ops : List Op) : CoreState :=
  ops.foldl (applyOp cfg) initState

/-- Modelled from the spec: one atomic destruction attempt by the
sweeper on a candidate session (§4.4, §4.5): the sweeper destroys the
candidate only when it is unpinned and either expired or the store is
over the warn threshold; a pinned candidate is skipped in the current
cycle. -/
def sweepAttempt (cfg : Config) (now : ℕ) (st : CoreState) (sid : String) : CoreState :=
  match assocFind st.registry sid with
  | none => st
  | some s =>
    if decide (s.pinCount = 0) && (expired cfg now s || isOverWarnThreshold cfg st) then
      destroySession st sid
    else st

/-- Modelled from the spec: the atomic interleaving alphabet of §5 for
an `open` running concurrently with a sweep cycle: the open's pin and
release micro-steps and the sweeper's per-session destruction
attempts, all serialized by the single mutual-exclusion domain. -/
inductive Act
  | actPin (sid : String)
  | actRelease (sid : String)
  | actSweepAttempt (cfg : Config) (now : ℕ) (sid : String)
deriving DecidableEq

/-- Modelled from the spec: one atomic step of an interleaving. -/
def stepAct (st : CoreState) : Act → CoreState
  | Act.actPin sid => pinSession st sid
  | Act.actRelease sid => releaseSession st sid
  | Act.actSweepAttempt cfg now sid => sweepAttempt cfg now st sid

/-- Modelled from the spec: running an interleaving of atomic steps. -/
def runActs (st : CoreState) (acts : List Act) : CoreState :=
  acts.foldl stepAct st

/-- A normalized strict descendant of the storage root: the path is
`root/s/f` where both components are real single names (nonempty, no
separators, no leading dot — in particular neither `.` nor `..`). -/
def goodComp (x : String) : Prop :=
  x ≠ "" ∧ ¬ '/' ∈ x.data ∧ ¬ '\\' ∈ x.data ∧ x.data.head? ≠ some '.'

/-- The returned path lies inside the configured storage root. -/
def insideRoot (root p : String) : Prop :=
  ∃ s f, p = root ++ sep ++ s ++ sep ++ f ∧ goodComp s ∧ goodComp f

/-- Whether two consecutive dots occur anywhere in a character list. -/
def containsDotDot : List Char → Bool
  | '.' :: '.' :: _ => true
  | _ :: t => containsDotDot t
  | [] => false

/-! ### Concrete scenario fixtures (§8) -/

/-- Modelled from the spec: §8's scenario configuration
(`MAX_STORAGE_MB = 1`, `STORAGE_WARN_PERCENT = 80`,
`RETENTION_SECONDS = 3600`). -/
def cfgScenario : Config := ⟨1, 80, 3600⟩

/-- Session id of scenario session A. -/
def sidA : String := "A"

/-- Filename of scenario session A's artifact. -/
def fA : String := "a.png"

/-- Session id of scenario session B. -/
def sidB : String := "B"

/-- Filename of scenario session B's artifact. -/
def fB : String := "b.png"

/-- Session id of scenario session C. -/
def sidC : String := "C"

/-- Filename of scenario session C's artifact. -/
def fC : String := "c.png"

/-- Scenario state: A (300 KB) stored at t = 0. -/
def stA : CoreState := (store initState sidA fA 300000 0 true 0).fst

/-- Scenario state: then B (300 KB) stored at t = 10. -/
def stAB : CoreState := (store stA sidB fB 300000 10 true 0).fst

/-- Scenario state: then C (300 KB) stored at t = 20. -/
def stABC : CoreState := (store stAB sidC fC 300000 20 true 0).fst

/-- Session id of scenario session D. -/
def sidD : String := "D"

/-- Filename of scenario session D's artifact. -/
def fD : String := "d.png"

/-- The configured storage root of the scenarios. -/
def upRoot : String := "uploads"

/-- Scenario state: D stored at t = 0. -/
def stD : CoreState := (store initState sidD fD 1000 0 true 0).fst

/-- A filename with an interior `..` that the §4.1 allow-list accepts. -/
def dotdotName : String := "a..b"

/-- A traversal filename (path separator, leading dot). -/
def dotSlashName : String := "../x"

/-- The path session A's artifact resolves to under `upRoot`. -/
def pathA : String := "uploads/A/a.png"

/-- The bookkeeping invariant of the mutual-exclusion domain (§4.2):
registry keys are unique and the SizeAccountant total equals the
registry sum. -/
def GoodState (st : CoreState) : Prop :=
  (st.registry.map Prod.fst).Nodup ∧ st.total = registrySum st

/-- Session `sid` (whose record was `s`) is fully destroyed: no registry
entry under its id remains and none of its artifact files remain on
disk. -/
def Absent (st : CoreState) (sid : String) (s : Session) : Prop :=
  (∀ p ∈ st.registry, p.fst ≠ sid) ∧
  (∀ a ∈ s.artifacts, ∀ e ∈ st.disk, e.fst ≠ (sid, a.filename))

end StorageCore

/-! ## Theorems -/

/-- A string whose right append operand is nonempty is nonempty. -/
theorem append_ne_empty_right (s t : String) (h : t ≠ "") : s ++ t ≠ "" := by
  intro he
  apply h
  have hd : s.data ++ t.data = [] := by
    have hc := congrArg String.data he
    rwa [String.data_append] at hc
  have ht : t.data = [] := (List.append_eq_nil.mp hd).2
  cases t
  simp_all

namespace CropperManager

/-- Claim C8: when no cropper instance is active, every query operation
(`getData`, `getCanvasData`, `getCropBoxData`) returns null, every
mutating operation (`rotate`, the flips, `reset`, `setAspectRatio`,
`replace`) returns without effect, and `getCroppedBlob` returns a
rejected promise carrying an error rather than throwing; no operation
dereferences the null instance (every operation is total on such
states). -/
theorem c8_null_guard (st : CMState) (rounded : Bool) (d ratio quality : Int)
    (url ty : String) (h : st.cropper = none) :
    getData st rounded = none ∧
    getCanvasData st = none ∧
    getCropBoxData st = none ∧
    rotate st d = st ∧
    flipHorizontal st = st ∧
    flipVertical st = st ∧
    reset st = st ∧
    setAspect st ratio = st ∧
    replace st url = st ∧
    getCroppedBlob st ty quality = Except.error noCropperMsg := by
  refine ⟨?_, ?_, ?_, ?_, ?_, ?_, ?_, ?_, ?_, ?_⟩ <;>
    simp [getData, getCanvasData, getCropBoxData, rotate, flipHorizontal,
      flipVertical, reset, setAspect, replace, getCroppedBlob, h]

/-- Witness for C8: the null guard at the module's initial state. -/
theorem c8_null_guard_witness :
    getData initialCM true = none ∧
    getCanvasData initialCM = none ∧
    getCropBoxData initialCM = none ∧
    rotate initialCM 90 = initialCM ∧
    flipHorizontal initialCM = initialCM ∧
    flipVertical initialCM = initialCM ∧
    reset initialCM = initialCM ∧
    setAspect initialCM 1 = initialCM ∧
    replace initialCM noCropperMsg = initialCM ∧
    getCroppedBlob initialCM noCropperMsg 1 = Except.error noCropperMsg :=
  c8_null_guard initialCM true 90 1 1 noCropperMsg noCropperMsg rfl

/-- One API call preserves the scale-state invariant. -/
theorem stepCM_scale (st : CMState) (op : CMOp)
    (h : (st.scaleX = 1 ∨ st.scaleX = -1) ∧ (st.scaleY = 1 ∨ st.scaleY = -1)) :
    ((stepCM st op).scaleX = 1 ∨ (stepCM st op).scaleX = -1) ∧
    ((stepCM st op).scaleY = 1 ∨ (stepCM st op).scaleY = -1) := by
  cases op <;> cases hc : st.cropper <;>
    simp [stepCM, init, destroy, rotate, flipHorizontal, flipVertical, reset,
      setAspect, replace, hc] <;>
    omega

/-- Folding API calls preserves the scale-state invariant. -/
theorem foldCM_scale (ops : List CMOp) :
    ∀ st : CMState,
      ((st.scaleX = 1 ∨ st.scaleX = -1) ∧ (st.scaleY = 1 ∨ st.scaleY = -1)) →
      (((ops.foldl stepCM st).scaleX = 1 ∨ (ops.foldl stepCM st).scaleX = -1) ∧
       ((ops.foldl stepCM st).scaleY = 1 ∨ (ops.foldl stepCM st).scaleY = -1)) := by
  induction ops with
  | nil => intro st h; simpa using h
  | cons op t ih =>
    intro st h
    simpa using ih (stepCM st op) (stepCM_scale st op h)

/-- Claim C9: after every reachable sequence of CropperManager
operations the internal scale state satisfies `scaleX ∈ {-1, 1}` and
`scaleY ∈ {-1, 1}`; `init` and (on an active instance) `reset` set both
to 1, each flip negates exactly one of them, and each flip composed
with itself restores the scale state. -/
theorem c9_scale_state :
    (∀ ops : List CMOp,
      ((runCM ops).scaleX = 1 ∨ (runCM ops).scaleX = -1) ∧
      ((runCM ops).scaleY = 1 ∨ (runCM ops).scaleY = -1)) ∧
    (∀ (st : CMState) (img : Int),
      (init st img).scaleX = 1 ∧ (init st img).scaleY = 1) ∧
    (∀ st : CMState, st.cropper ≠ none →
      ((reset st).scaleX = 1 ∧ (reset st).scaleY = 1 ∧
       (flipHorizontal st).scaleX = -st.scaleX ∧ (flipHorizontal st).scaleY = st.scaleY ∧
       (flipVertical st).scaleY = -st.scaleY ∧ (flipVertical st).scaleX = st.scaleX)) ∧
    (∀ st : CMState,
      (flipHorizontal (flipHorizontal st)).scaleX = st.scaleX ∧
      (flipHorizontal (flipHorizontal st)).scaleY = st.scaleY ∧
      (flipVertical (flipVertical st)).scaleX = st.scaleX ∧
      (flipVertical (flipVertical st)).scaleY = st.scaleY) := by
  refine ⟨?_, ?_, ?_, ?_⟩
  · intro ops
    exact foldCM_scale ops initialCM (by simp [initialCM])
  · intro st img
    simp [init]
  · intro st h
    cases hc : st.cropper with
    | none => exact absurd hc h
    | some c => simp [reset, flipHorizontal, flipVertical, hc]
  · intro st
    cases hc : st.cropper with
    | none => simp [flipHorizontal, flipVertical, hc]
    | some c => simp [flipHorizontal, flipVertical, hc]

/-- Witness for C9: the conditional clauses at a concrete active state. -/
theorem c9_scale_state_witness :
    (reset (init initialCM 0)).scaleX = 1 ∧
    (reset (init initialCM 0)).scaleY = 1 ∧
    (flipHorizontal (init initialCM 0)).scaleX = -(init initialCM 0).scaleX ∧
    (flipHorizontal (init initialCM 0)).scaleY = (init initialCM 0).scaleY ∧
    (flipVertical (init initialCM 0)).scaleY = -(init initialCM 0).scaleY ∧
    (flipVertical (init initialCM 0)).scaleX = (init initialCM 0).scaleX :=
  c9_scale_state.2.2.1 (init initialCM 0) (by decide)

end CropperManager

namespace Overlays

/-- Every rule-of-thirds fragment is nonempty. -/
theorem ruleOfThirds_ne_empty (c : String) (w h : ℚ) : ruleOfThirds c w h ≠ "" :=
  append_ne_empty_right _ _ (by decide)

/-- Every golden-spiral fragment is nonempty. -/
theorem goldenSpiral_ne_empty (c : String) (w h : ℚ) : goldenSpiral c w h ≠ "" :=
  append_ne_empty_right _ _ (by decide)

/-- Every phi-grid fragment is nonempty. -/
theorem phiGrid_ne_empty (c : String) (w h : ℚ) : phiGrid c w h ≠ "" :=
  append_ne_empty_right _ _ (by decide)

/-- Every golden-triangles fragment is nonempty. -/
theorem goldenTriangles_ne_empty (c : String) (w h : ℚ) : goldenTriangles c w h ≠ "" :=
  append_ne_empty_right _ _ (by decide)

/-- Every diagonal-method fragment is nonempty. -/
theorem diagonalMethod_ne_empty (c : String) (w h : ℚ) : diagonalMethod c w h ≠ "" :=
  append_ne_empty_right _ _ (by decide)

/-- Every dynamic-symmetry fragment is nonempty. -/
theorem dynamicSymmetry_ne_empty (c : String) (w h : ℚ) : dynamicSymmetry c w h ≠ "" :=
  append_ne_empty_right _ _ (by decide)

/-- Every diamond-grid fragment is nonempty. -/
theorem diamondGrid_ne_empty (c : String) (w h : ℚ) : diamondGrid c w h ≠ "" :=
  append_ne_empty_right _ _ (by decide)

/-- Every vanishing-point fragment is nonempty. -/
theorem vanishingPoint_ne_empty (c : String) (w h : ℚ) : vanishingPoint c w h ≠ "" :=
  append_ne_empty_right _ _ (by decide)

/-- Every center-cross fragment is nonempty. -/
theorem centerCross_ne_empty (c : String) (w h : ℚ) : centerCross c w h ≠ "" :=
  append_ne_empty_right _ _ (by decide)

/-- Every quadrants fragment is nonempty. -/
theorem quadrants_ne_empty (c : String) (w h : ℚ) : quadrants c w h ≠ "" :=
  append_ne_empty_right _ _ (by decide)

/-- Registry lookup fails exactly on non-keys. -/
theorem registryFind_none_iff (name : String) :
    registryFind name = none ↔ ¬ name ∈ overlayKeys := by
  unfold registryFind
  split_ifs <;> simp_all [overlayKeys]

set_option maxHeartbeats 1600000 in
/-- Every registered generator produces a nonempty fragment. -/
theorem registryFind_some_ne_empty (name : String) (f : String → ℚ → ℚ → String)
    (hf : registryFind name = some f) (c : String) (w h : ℚ) : f c w h ≠ "" := by
  unfold registryFind at hf
  split_ifs at hf
  · injection hf with hg; subst hg; exact ruleOfThirds_ne_empty c w h
  · injection hf with hg; subst hg; exact goldenSpiral_ne_empty c w h
  · injection hf with hg; subst hg; exact phiGrid_ne_empty c w h
  · injection hf with hg; subst hg; exact goldenTriangles_ne_empty c w h
  · injection hf with hg; subst hg; exact diagonalMethod_ne_empty c w h
  · injection hf with hg; subst hg; exact dynamicSymmetry_ne_empty c w h
  · injection hf with hg; subst hg; exact diamondGrid_ne_empty c w h
  · injection hf with hg; subst hg; exact vanishingPoint_ne_empty c w h
  · injection hf with hg; subst hg; exact centerCross_ne_empty c w h
  · injection hf with hg; subst hg; exact quadrants_ne_empty c w h

set_option maxHeartbeats 1600000 in
/-- No inherited `Object.prototype` member call returns the empty
string. -/
theorem protoCall_ne_emptyValue (name : String) :
    protoCall name ≠ RenderResult.value (JsVal.str emptyOut) := by
  unfold protoCall
  split_ifs <;> decide

/-- No name is both a registry key and an `Object.prototype` member. -/
theorem proto_not_key : ∀ n ∈ protoProps, ¬ n ∈ overlayKeys := by decide

/-- Claim C10 counterexample: `"toString"` is not a registry key and not
`"none"`, yet `render` returns the nonempty string `"[object Object]"`
for it (the inherited `Object.prototype.toString` passes the truthiness
guard); and `render` on `"__proto__"` throws a `TypeError` instead of
returning at all. -/
theorem c10_counterexample :
    ¬ toStringName ∈ overlayKeys ∧
    ¬ toStringName = "none" ∧
    render strokeColorDefault toStringName 100 100 =
      RenderResult.value (JsVal.str objObjStr) ∧
    ¬ objObjStr = emptyOut ∧
    render strokeColorDefault protoName 100 100 = RenderResult.typeError :=
  ⟨by decide, by decide, by decide, by decide, by decide⟩

/-- Claim C10 (amended): for every name, width, height and stroke
colour, `render` returns the empty string exactly when the name is
`"none"` or is neither one of the ten registry keys nor a property the
registry inherits from `Object.prototype`; on every registry key it
returns a nonempty string (the generator output); it can throw — a
`TypeError` — only on inherited non-key names, and on an inherited
non-`"none"` name the truthiness guard does not reject and the call is
the inherited member call. -/
theorem c10_render_characterization (color name : String) (w h : ℚ) :
    (render color name w h = RenderResult.value (JsVal.str emptyOut) ↔
      (name = "none" ∨ (¬ name ∈ overlayKeys ∧ ¬ name ∈ protoProps))) ∧
    (name ∈ overlayKeys →
      ∃ s, render color name w h = RenderResult.value (JsVal.str s) ∧ s ≠ emptyOut) ∧
    (render color name w h = RenderResult.typeError →
      name ∈ protoProps ∧ ¬ name ∈ overlayKeys) ∧
    (¬ name = "none" → name ∈ protoProps →
      render color name w h = protoCall name) := by
  by_cases hn : name = "none"
  · subst hn
    have hr : render color "none" w h = RenderResult.value (JsVal.str emptyOut) := by
      unfold render
      rw [if_pos rfl]
    refine ⟨?_, ?_, ?_, ?_⟩
    · simp [hr]
    · intro hk
      exact absurd hk (by decide)
    · intro ht
      rw [hr] at ht
      exact RenderResult.noConfusion ht
    · intro hnn _
      exact absurd rfl hnn
  · cases hf : registryFind name with
    | some f =>
      have hr : render color name w h = RenderResult.value (JsVal.str (f color w h)) := by
        simp [render, registryLookup, hn, hf]
      have hkey : name ∈ overlayKeys := by
        by_contra hc
        rw [← registryFind_none_iff] at hc
        simp [hc] at hf
      have hne := registryFind_some_ne_empty name f hf color w h
      refine ⟨?_, ?_, ?_, ?_⟩
      · rw [hr]
        simp [emptyOut, hne, hn, hkey]
      · intro _
        exact ⟨f color w h, hr, by simpa [emptyOut] using hne⟩
      · intro ht
        rw [hr] at ht
        exact RenderResult.noConfusion ht
      · intro _ hp
        exact absurd hkey (proto_not_key name hp)
    | none =>
      have hnk : ¬ name ∈ overlayKeys := (registryFind_none_iff name).mp hf
      by_cases hp : name ∈ protoProps
      · have hr : render color name w h = protoCall name := by
          simp [render, registryLookup, hn, hf, hp]
        refine ⟨?_, ?_, ?_, ?_⟩
        · rw [hr]
          simp [protoCall_ne_emptyValue name, hn, hp]
        · intro hk
          exact absurd hk hnk
        · intro _
          exact ⟨hp, hnk⟩
        · intro _ _
          exact hr
      · have hr : render color name w h = RenderResult.value (JsVal.str emptyOut) := by
          simp [render, registryLookup, hn, hf, hp]
        refine ⟨?_, ?_, ?_, ?_⟩
        · simp [hr, hn, hnk, hp]
        · intro hk
          exact absurd hk hnk
        · intro ht
          rw [hr] at ht
          exact RenderResult.noConfusion ht
        · intro _ hp2
          exact absurd hp2 hp

/-- Witness for C10 at concrete inputs: a registry key renders a
nonempty fragment, `"__proto__"` (which throws) is an inherited
non-key, and `"toString"` renders as the inherited member call. -/
theorem c10_render_characterization_witness :
    (∃ s, render strokeColorDefault ruleKey 100 100 =
      RenderResult.value (JsVal.str s) ∧ s ≠ emptyOut) ∧
    (protoName ∈ protoProps ∧ ¬ protoName ∈ overlayKeys) ∧
    render strokeColorDefault toStringName 100 100 = protoCall toStringName := by
  refine ⟨(c10_render_characterization strokeColorDefault ruleKey 100 100).2.1 ?_,
    (c10_render_characterization strokeColorDefault protoName 100 100).2.2.1 ?_,
    (c10_render_characterization strokeColorDefault toStringName 100 100).2.2.2 ?_ ?_⟩
  · decide
  · decide
  · decide
  · decide

end Overlays

namespace StorageCore

/-- A registry lookup misses exactly when no entry carries the key. -/
theorem assocFind_eq_none {l : List (String × Session)} {sid : String} :
    assocFind l sid = none ↔ ∀ p ∈ l, p.fst ≠ sid := by
  induction l with
  | nil => simp [assocFind]
  | cons p t ih =>
    by_cases h : p.fst = sid <;> simp [assocFind, h, ih]

/-- A successful registry lookup returns an entry of the list. -/
theorem assocFind_mem : ∀ {l : List (String × Session)} {sid : String} {s : Session},
    assocFind l sid = some s → (sid, s) ∈ l := by
  intro l
  induction l with
  | nil => intro sid s h; simp [assocFind] at h
  | cons p t ih =>
    intro sid s h
    simp only [assocFind] at h
    by_cases hp : p.fst = sid
    · rw [if_pos hp] at h
      injection h with h2
      obtain ⟨a, b⟩ := p
      subst hp
      subst h2
      exact List.mem_cons_self _ _
    · rw [if_neg hp] at h
      exact List.mem_cons_of_mem _ (ih h)

/-- A key present in the list is found. -/
theorem assocFind_ne_none_of_mem {l : List (String × Session)} {sid : String} {s : Session}
    (h : (sid, s) ∈ l) : assocFind l sid ≠ none := by
  intro hn
  exact (assocFind_eq_none.mp hn _ h) rfl

/-- Filtering away another key does not change a lookup. -/
theorem assocFind_filter_ne {x sid : String} (hx : sid ≠ x) :
    ∀ l : List (String × Session),
      assocFind (l.filter (fun p => decide (p.fst ≠ x))) sid = assocFind l sid := by
  intro l
  induction l with
  | nil => rfl
  | cons p t ih =>
    rw [List.filter_cons]
    by_cases hp : p.fst = x
    · rw [decide_eq_false (fun hc => hc hp), if_neg Bool.false_ne_true, ih]
      have hps : p.fst ≠ sid := fun hc => hx (hc ▸ hp)
      simp only [assocFind, if_neg hps]
    · rw [decide_eq_true hp, if_pos rfl]
      simp only [assocFind, ih]

/-- `updateFirst` preserves the key sequence. -/
theorem updateFirst_keys (sid : String) (s : Session) :
    ∀ l : List (String × Session),
      (updateFirst l sid s).map Prod.fst = l.map Prod.fst := by
  intro l
  induction l with
  | nil => rfl
  | cons p t ih =>
    by_cases hp : p.fst = sid <;> simp [updateFirst, hp, ih]

/-- Looking up the updated key finds the new record. -/
theorem assocFind_updateFirst_self {sid : String} {t : Session} (s : Session) :
    ∀ {l : List (String × Session)}, assocFind l sid = some t →
      assocFind (updateFirst l sid s) sid = some s := by
  intro l
  induction l with
  | nil => intro h; simp [assocFind] at h
  | cons p tl ih =>
    intro h
    by_cases hp : p.fst = sid
    · simp [updateFirst, hp, assocFind]
    · simp only [assocFind, if_neg hp] at h
      simp [updateFirst, hp, assocFind, ih h]

/-- Looking up a different key is unchanged by `updateFirst`. -/
theorem assocFind_updateFirst_ne {sid x : String} (hx : x ≠ sid) (s : Session) :
    ∀ l : List (String × Session),
      assocFind (updateFirst l sid s) x = assocFind l x := by
  intro l
  induction l with
  | nil => rfl
  | cons p tl ih =>
    by_cases hp : p.fst = sid
    · have hsx : ¬ sid = x := fun hc => hx hc.symm
      simp [updateFirst, hp, assocFind, hsx, hx]
    · by_cases hs : p.fst = x <;> simp [updateFirst, hp, assocFind, hs, hx, ih]

/-- Sum bookkeeping of an in-place update. -/
theorem sumSessions_updateFirst {sid : String} {t : Session} (s : Session) :
    ∀ {l : List (String × Session)}, assocFind l sid = some t →
      sumSessions (updateFirst l sid s) + sessionSize t =
        sumSessions l + sessionSize s := by
  intro l
  induction l with
  | nil => intro h; simp [assocFind] at h
  | cons p tl ih =>
    intro h
    simp only [assocFind] at h
    by_cases hp : p.fst = sid
    · rw [if_pos hp] at h
      injection h with h2
      simp [updateFirst, hp, sumSessions, h2]
      omega
    · rw [if_neg hp] at h
      have := ih h
      simp only [updateFirst, if_neg hp]
      simp [sumSessions] at this ⊢
      omega

/-- Sum bookkeeping of removing one key from a nodup-keyed registry. -/
theorem sumSessions_filter_ne {sid : String} {s : Session} :
    ∀ {l : List (String × Session)}, assocFind l sid = some s →
      (l.map Prod.fst).Nodup →
      sumSessions (l.filter (fun p => decide (p.fst ≠ sid))) + sessionSize s =
        sumSessions l := by
  intro l
  induction l with
  | nil => intro h _; simp [assocFind] at h
  | cons p tl ih =>
    intro h hnd
    simp only [List.map_cons, List.nodup_cons] at hnd
    obtain ⟨hpnot, hndtl⟩ := hnd
    simp only [assocFind] at h
    by_cases hp : p.fst = sid
    · rw [if_pos hp] at h
      injection h with h2
      have htl : tl.filter (fun q => !decide (q.fst = sid)) = tl := by
        refine List.filter_eq_self.mpr (fun q hq => ?_)
        have hq2 : q.fst ≠ sid := by
          intro hc
          apply hpnot
          rw [hp, ← hc]
          exact List.mem_map_of_mem Prod.fst hq
        simp [hq2]
      simp [List.filter_cons, hp, htl, sumSessions, h2]
      omega
    · rw [if_neg hp] at h
      have := ih h hndtl
      simp [List.filter_cons, hp, sumSessions] at this ⊢
      omega

/-- `register` preserves the bookkeeping invariant. -/
theorem goodState_register {st : CoreState} (h : GoodState st)
    (sid f : String) (size now : ℕ) : GoodState (register st sid f size now) := by
  obtain ⟨hnd, htot⟩ := h
  unfold register
  cases hfind : assocFind st.registry sid with
  | some s =>
    constructor
    · simpa [updateFirst_keys] using hnd
    · have hsum := sumSessions_updateFirst
        ⟨s.createdAt, now, s.artifacts ++ [⟨f, size, now⟩], s.pinCount⟩ hfind
      have hss : sessionSize ⟨s.createdAt, now, s.artifacts ++ [⟨f, size, now⟩], s.pinCount⟩ =
          sessionSize s + size := by
        simp [sessionSize]
      simp only [registrySum] at htot ⊢
      rw [hss] at hsum
      omega
  | none =>
    have hnotin : ¬ sid ∈ st.registry.map Prod.fst := by
      intro hc
      obtain ⟨p, hp, hpe⟩ := List.mem_map.mp hc
      exact (assocFind_eq_none.mp hfind p hp) hpe
    constructor
    · simp only [List.map_append, List.map_cons, List.map_nil]
      exact List.Nodup.append hnd (List.nodup_singleton sid)
        (by simpa [List.disjoint_singleton] using hnotin)
    · have hx : registrySum ⟨st.registry ++ [(sid, ⟨now, now, [⟨f, size, now⟩], 0⟩)],
          st.total + size, st.disk⟩ = sumSessions st.registry + size := by
        simp [registrySum, sumSessions, sessionSize]
      have h2 : st.total = sumSessions st.registry := htot
      show st.total + size = registrySum ⟨st.registry ++ [(sid, ⟨now, now, [⟨f, size, now⟩], 0⟩)],
        st.total + size, st.disk⟩
      rw [hx]
      omega

/-- `destroySession` preserves the bookkeeping invariant. -/
theorem goodState_destroySession {st : CoreState} (h : GoodState st)
    (sid : String) : GoodState (destroySession st sid) := by
  obtain ⟨hnd, htot⟩ := h
  unfold destroySession
  cases hfind : assocFind st.registry sid with
  | none => exact ⟨hnd, htot⟩
  | some s =>
    have hsum := sumSessions_filter_ne hfind hnd
    constructor
    · exact hnd.sublist ((List.filter_sublist _).map Prod.fst)
    · have h2 : st.total = sumSessions st.registry := htot
      show st.total - sessionSize s =
        sumSessions (st.registry.filter (fun p => decide (p.fst ≠ sid)))
      omega

/-- `store` preserves the bookkeeping invariant. -/
theorem goodState_store {st : CoreState} (h : GoodState st)
    (sid f : String) (size now : ℕ) (ok : Bool) (pSize : ℕ) :
    GoodState (store st sid f size now ok pSize).fst := by
  cases ok with
  | true =>
    have hw : GoodState ⟨st.registry, st.total, st.disk ++ [((sid, f), size)]⟩ := ⟨h.1, h.2⟩
    show GoodState (register ⟨st.registry, st.total, st.disk ++ [((sid, f), size)]⟩ sid f size now)
    exact goodState_register hw sid f size now
  | false =>
    exact ⟨h.1, h.2⟩

/-- An expiry-phase visit preserves the bookkeeping invariant. -/
theorem goodState_expiryStep {cfg : Config} {now : ℕ} {acc : CoreState}
    (h : GoodState acc) (p : String × Session) :
    GoodState (expiryStep cfg now acc p) := by
  unfold expiryStep
  by_cases hc : (expired cfg now p.snd && decide (p.snd.pinCount = 0)) = true
  · rw [if_pos hc]
    exact goodState_destroySession h p.fst
  · rw [if_neg hc]
    exact h

/-- The expiry fold preserves the bookkeeping invariant. -/
theorem goodState_foldExpiry (cfg : Config) (now : ℕ) :
    ∀ (l : List (String × Session)) (acc : CoreState), GoodState acc →
      GoodState (l.foldl (expiryStep cfg now) acc) := by
  intro l
  induction l with
  | nil => intro acc h; simpa using h
  | cons p t ih =>
    intro acc h
    exact ih (expiryStep cfg now acc p) (goodState_expiryStep h p)

/-- The pressure loop preserves the bookkeeping invariant. -/
theorem goodState_pressureSteps (cfg : Config) :
    ∀ (fuel : ℕ) (st : CoreState), GoodState st →
      GoodState (pressureSteps cfg fuel st).snd := by
  intro fuel
  induction fuel with
  | zero => intro st h; exact h
  | succ n ih =>
    intro st h
    unfold pressureSteps
    by_cases hov : isOverWarnThreshold cfg st = true
    · rw [if_pos hov]
      cases hq : oldestEvictable st with
      | none => exact h
      | some q => exact ih (destroySession st q.fst) (goodState_destroySession h q.fst)
    · rw [if_neg hov]
      exact h

/-- A sweep cycle preserves the bookkeeping invariant. -/
theorem goodState_sweep {st : CoreState} (h : GoodState st)
    (cfg : Config) (now : ℕ) : GoodState (sweep cfg now st) :=
  goodState_pressureSteps cfg _ _ (goodState_foldExpiry cfg now st.registry st h)

/-- Every state reached by store/sweep operations satisfies the
bookkeeping invariant. -/
theorem goodState_runOps (cfg : Config) (ops : List Op) :
    GoodState (runOps cfg ops) := by
  have hstep : ∀ (l : List Op) (st : CoreState), GoodState st →
      GoodState (l.foldl (applyOp cfg) st) := by
    intro l
    induction l with
    | nil => intro st h; simpa using h
    | cons op t ih =>
      intro st h
      refine ih (applyOp cfg st op) ?_
      cases op with
      | opStore sid f size now ok p => exact goodState_store h sid f size now ok p
      | opSweep now => exact goodState_sweep h cfg now
  exact hstep ops initState ⟨List.nodup_nil, rfl⟩

/-- Claim C1: after every sequence of completed store/sweep operations,
`SizeAccountant.totalBytes()` equals the sum of `size_bytes` over all
artifacts currently present in the ArtifactRegistry (the invariant
holds in every observable state between operations). -/
theorem c1_accounting (cfg : Config) (ops : List Op) :
    totalBytes (runOps cfg ops) = registrySum (runOps cfg ops) :=
  (goodState_runOps cfg ops).2

/-- Claim C7: `isOverWarnThreshold()` holds exactly when `totalBytes()`
exceeds `MAX_STORAGE_MB * STORAGE_WARN_PERCENT / 100` bytes (with the
conversion giving an 800 KB warn line for 1 MB at 80 %), and the total
is maintained incrementally: a register adds exactly the new artifact's
size and a destroy subtracts exactly the destroyed session's size. -/
theorem c7_warn_threshold (cfg : Config) (st : CoreState) (sid f : String)
    (size now : ℕ) (s : Session) :
    (isOverWarnThreshold cfg st = true ↔ warnThresholdBytes cfg < totalBytes st) ∧
    warnThresholdBytes ⟨1, 80, 3600⟩ = 800000 ∧
    totalBytes (register st sid f size now) = totalBytes st + size ∧
    (assocFind st.registry sid = some s →
      totalBytes (destroySession st sid) = totalBytes st - sessionSize s) := by
  refine ⟨by simp [isOverWarnThreshold, totalBytes], by decide, ?_, ?_⟩
  · unfold register totalBytes
    cases assocFind st.registry sid <;> rfl
  · intro hf
    unfold destroySession totalBytes
    rw [hf]

/-- Witness for C7 at the stored-D scenario state. -/
theorem c7_warn_threshold_witness :
    (isOverWarnThreshold cfgScenario stD = true ↔
      warnThresholdBytes cfgScenario < totalBytes stD) ∧
    warnThresholdBytes ⟨1, 80, 3600⟩ = 800000 ∧
    totalBytes (register stD sidD fD 5 9) = totalBytes stD + 5 ∧
    totalBytes (destroySession stD sidD) =
      totalBytes stD - sessionSize ⟨0, 0, [⟨fD, 1000, 0⟩], 0⟩ := by
  have h := c7_warn_threshold cfgScenario stD sidD fD 5 9 ⟨0, 0, [⟨fD, 1000, 0⟩], 0⟩
  exact ⟨h.1, h.2.1, h.2.2.1, h.2.2.2 (by decide)⟩

/-- Claim C6: a `store` whose underlying write fails partway leaves the
whole core state unchanged — no registry entry for the pair, no partial
file on disk. -/
theorem c6_failed_store_atomic (st : CoreState) (sid f : String)
    (size now pSize : ℕ)
    (hfresh : ∀ e ∈ st.disk, e.fst ≠ (sid, f)) :
    (store st sid f size now false pSize).fst = st ∧
    (store st sid f size now false pSize).snd = Except.error StorageError.ioFailure ∧
    (∀ e ∈ (store st sid f size now false pSize).fst.disk, e.fst ≠ (sid, f)) ∧
    (lookupArtifact st sid f = none →
      lookupArtifact (store st sid f size now false pSize).fst sid f = none) := by
  have hdisk : (st.disk ++ [((sid, f), pSize)]).filter
      (fun e => decide (e.fst ≠ (sid, f))) = st.disk := by
    have h1 : st.disk.filter (fun e => decide (e.fst ≠ (sid, f))) = st.disk := by
      refine List.filter_eq_self.mpr (fun e he => ?_)
      exact decide_eq_true (hfresh e he)
    rw [List.filter_append, h1]
    simp
  have hst : (store st sid f size now false pSize).fst = st := by
    show (⟨st.registry, st.total,
      (st.disk ++ [((sid, f), pSize)]).filter (fun e => decide (e.fst ≠ (sid, f)))⟩ :
        CoreState) = st
    rw [hdisk]
  refine ⟨hst, ?_, ?_, ?_⟩
  · simp [store]
  · intro e he
    rw [hst] at he
    exact hfresh e he
  · intro hl
    rw [hst]
    exact hl

/-- Witness for C6 at the empty initial state. -/
theorem c6_failed_store_atomic_witness :
    (store initState sidA fA 5 0 false 3).fst = initState ∧
    (store initState sidA fA 5 0 false 3).snd = Except.error StorageError.ioFailure ∧
    (∀ e ∈ (store initState sidA fA 5 0 false 3).fst.disk, e.fst ≠ (sidA, fA)) ∧
    (lookupArtifact initState sidA fA = none →
      lookupArtifact (store initState sidA fA 5 0 false 3).fst sidA fA = none) :=
  c6_failed_store_atomic initState sidA fA 5 0 3 (by simp [initState])

end StorageCore

namespace StorageCore

/-- The head of a list, when present, is a member. -/
theorem head?_mem {α : Type} {l : List α} {a : α} (h : l.head? = some a) : a ∈ l := by
  cases l with
  | nil => simp at h
  | cons x t =>
    simp at h
    rw [h]
    exact List.mem_cons_self _ _

/-- Splitting at a separator character absent from both prefixes is
unique. -/
theorem splitAtChar_unique (c : Char) :
    ∀ (a b x y : List Char), ¬ c ∈ a → ¬ c ∈ b →
      a ++ c :: x = b ++ c :: y → a = b ∧ x = y := by
  intro a
  induction a with
  | nil =>
    intro b x y _ hb h
    cases b with
    | nil =>
      simp only [List.nil_append] at h
      injection h with _ h2
      exact ⟨rfl, h2⟩
    | cons d bs =>
      simp only [List.nil_append, List.cons_append] at h
      injection h with h1 _
      subst h1
      exact absurd (List.mem_cons_self c bs) hb
  | cons d as ih =>
    intro b x y ha hb h
    cases b with
    | nil =>
      simp only [List.cons_append, List.nil_append] at h
      injection h with h1 _
      subst h1
      exact absurd (List.mem_cons_self d as) ha
    | cons e bs =>
      simp only [List.cons_append] at h
      injection h with h1 h2
      have ihr := ih bs x y (fun hc => ha (List.mem_cons_of_mem d hc))
        (fun hc => hb (List.mem_cons_of_mem e hc)) h2
      exact ⟨by rw [h1, ihr.1], ihr.2⟩

/-- An accepted filename is a safe single component. -/
theorem validFilename_goodComp {f : String} (h : validFilename f = true) : goodComp f := by
  unfold validFilename at h
  simp only [Bool.and_eq_true, decide_eq_true_eq, List.all_eq_true] at h
  obtain ⟨⟨⟨hne, _⟩, hhead⟩, hall⟩ := h
  refine ⟨?_, ?_, ?_, hhead⟩
  · intro he
    rw [he] at hne
    exact absurd hne (by decide)
  · intro hc
    exact absurd (hall _ hc) (by decide)
  · intro hc
    exact absurd (hall _ hc) (by decide)

/-- An accepted session token is a safe single component. -/
theorem validToken_goodComp {sid : String} (h : validToken sid = true) : goodComp sid := by
  unfold validToken at h
  simp only [Bool.and_eq_true, decide_eq_true_eq, List.all_eq_true] at h
  obtain ⟨⟨hne, _⟩, hall⟩ := h
  refine ⟨?_, ?_, ?_, ?_⟩
  · intro he
    rw [he] at hne
    exact absurd hne (by decide)
  · intro hc
    exact absurd (hall _ hc) (by decide)
  · intro hc
    exact absurd (hall _ hc) (by decide)
  · intro hc
    exact absurd (hall _ (head?_mem hc)) (by decide)

/-- Eliminating a successful resolve. -/
theorem resolve_ok_elim {root sid f p : String}
    (h : resolve root sid f = Except.ok p) :
    validToken sid = true ∧ validFilename f = true ∧
      p = root ++ sep ++ sid ++ sep ++ f := by
  unfold resolve at h
  by_cases hv : (validToken sid && validFilename f) = true
  · rw [if_pos hv] at h
    injection h with hp
    rw [Bool.and_eq_true] at hv
    exact ⟨hv.1, hv.2, hp.symm⟩
  · rw [if_neg hv] at h
    exact Except.noConfusion h

/-- Claim C4 (amended): every filename containing a path separator
(hence every absolute prefix and every multi-component traversal such
as `../x`), or containing a backslash or a null byte, or starting with
a dot (hence `..` itself), is rejected with `InvalidName` — and
`resolve` is a pure function of its arguments, so no filesystem call is
involved; every accepted `(session_id, filename)` pair resolves to a
path inside the configured storage root, and the pair is recoverable
from the path (two pairs resolving to the same path are equal).  A `..`
occurring strictly inside one otherwise-valid component (e.g. `a..b`)
is accepted by the §4.1 allow-list — see the counterexample. -/
theorem c4_path_resolver (root sid f p s1 f1 s2 f2 : String) :
    (('/' ∈ f.data ∨ '\\' ∈ f.data ∨ Char.ofNat 0 ∈ f.data ∨ f.data.head? = some '.') →
      resolve root sid f = Except.error PathError.invalidName) ∧
    (resolve root sid f = Except.ok p → insideRoot root p) ∧
    (resolve root s1 f1 = Except.ok p → resolve root s2 f2 = Except.ok p →
      s1 = s2 ∧ f1 = f2) := by
  refine ⟨?_, ?_, ?_⟩
  · intro hbad
    unfold resolve
    have hvf : ¬ (validToken sid && validFilename f) = true := by
      intro hok
      rw [Bool.and_eq_true] at hok
      have hf : validFilename f = true := hok.2
      unfold validFilename at hf
      simp only [Bool.and_eq_true, decide_eq_true_eq, List.all_eq_true] at hf
      obtain ⟨⟨⟨_, _⟩, hhead⟩, hall⟩ := hf
      rcases hbad with hb | hb | hb | hb
      · exact absurd (hall _ hb) (by decide)
      · exact absurd (hall _ hb) (by decide)
      · exact absurd (hall _ hb) (by decide)
      · exact hhead hb
    rw [if_neg hvf]
  · intro hok
    obtain ⟨hvt, hvf, hp⟩ := resolve_ok_elim hok
    exact ⟨sid, f, hp, validToken_goodComp hvt, validFilename_goodComp hvf⟩
  · intro h1 h2
    obtain ⟨hvt1, hvf1, hp1⟩ := resolve_ok_elim h1
    obtain ⟨hvt2, hvf2, hp2⟩ := resolve_ok_elim h2
    have hno1 := validToken_goodComp hvt1
    have hno2 := validToken_goodComp hvt2
    have hd : (root ++ sep ++ s1 ++ sep ++ f1).data =
        (root ++ sep ++ s2 ++ sep ++ f2).data :=
      congrArg String.data (hp1.symm.trans hp2)
    simp only [String.data_append] at hd
    have hsep : sep.data = ['/'] := rfl
    rw [hsep] at hd
    simp only [List.append_assoc, List.singleton_append] at hd
    have hd2 := List.append_cancel_left hd
    injection hd2 with _ hd3
    have hu := splitAtChar_unique '/' s1.data s2.data f1.data f2.data
      hno1.2.1 hno2.2.1 hd3
    exact ⟨String.ext hu.1, String.ext hu.2⟩

/-- Claim C4 counterexample: `a..b` contains `..` yet passes the §4.1
allow-list, so `resolve` accepts it instead of failing with
`InvalidName`. -/
theorem c4_counterexample :
    containsDotDot dotdotName.data = true ∧
    resolve upRoot sidA dotdotName =
      Except.ok (upRoot ++ sep ++ sidA ++ sep ++ dotdotName) :=
  ⟨by decide, rfl⟩

/-- Witness for C4 at concrete inputs: `../x` is rejected, `a.png`
resolves inside the root, and the pair is recoverable. -/
theorem c4_path_resolver_witness :
    resolve upRoot sidA dotSlashName = Except.error PathError.invalidName ∧
    insideRoot upRoot pathA ∧
    (sidA = sidA ∧ fA = fA) := by
  refine ⟨(c4_path_resolver upRoot sidA dotSlashName pathA sidA fA sidA fA).1 ?_,
    (c4_path_resolver upRoot sidA fA pathA sidA fA sidA fA).2.1 ?_,
    (c4_path_resolver upRoot sidA fA pathA sidA fA sidA fA).2.2 ?_ ?_⟩
  · exact Or.inl (by decide)
  · rfl
  · rfl
  · rfl

end StorageCore

namespace StorageCore

/-- Destruction of any session preserves full absence of another. -/
theorem absent_destroySession {st : CoreState} {sid : String} {s : Session}
    (h : Absent st sid s) (x : String) : Absent (destroySession st x) sid s := by
  obtain ⟨hreg, hdisk⟩ := h
  unfold destroySession
  cases hf : assocFind st.registry x with
  | none => exact ⟨hreg, hdisk⟩
  | some t =>
    constructor
    · intro p hp
      exact hreg p (List.mem_of_mem_filter hp)
    · intro a ha e he
      exact hdisk a ha e (List.mem_of_mem_filter he)

/-- Destroying a found session makes it fully absent. -/
theorem absent_destroy_self {st : CoreState} {sid : String} {s : Session}
    (hf : assocFind st.registry sid = some s) : Absent (destroySession st sid) sid s := by
  unfold destroySession
  rw [hf]
  constructor
  · intro p hp
    have hpred := (List.mem_filter.mp hp).2
    simpa using hpred
  · intro a ha e he
    have hpred := (List.mem_filter.mp he).2
    simp only [decide_eq_true_eq] at hpred
    intro hee
    apply hpred
    constructor
    · rw [hee]
    · rw [hee]
      exact List.mem_map_of_mem Artifact.filename ha

/-- An expiry visit preserves full absence. -/
theorem absent_expiryStep {acc : CoreState} {sid : String} {s : Session}
    (h : Absent acc sid s) (cfg : Config) (now : ℕ) (p : String × Session) :
    Absent (expiryStep cfg now acc p) sid s := by
  unfold expiryStep
  by_cases hc : (expired cfg now p.snd && decide (p.snd.pinCount = 0)) = true
  · rw [if_pos hc]
    exact absent_destroySession h p.fst
  · rw [if_neg hc]
    exact h

/-- The expiry fold preserves full absence. -/
theorem absent_foldExpiry (cfg : Config) (now : ℕ) (sid : String) (s : Session) :
    ∀ (l : List (String × Session)) (acc : CoreState), Absent acc sid s →
      Absent (l.foldl (expiryStep cfg now) acc) sid s := by
  intro l
  induction l with
  | nil => intro acc h; exact h
  | cons p t ih =>
    intro acc h
    exact ih (expiryStep cfg now acc p) (absent_expiryStep h cfg now p)

/-- The pressure loop preserves full absence. -/
theorem absent_pressureSteps (cfg : Config) (sid : String) (s : Session) :
    ∀ (fuel : ℕ) (st : CoreState), Absent st sid s →
      Absent (pressureSteps cfg fuel st).snd sid s := by
  intro fuel
  induction fuel with
  | zero => intro st h; exact h
  | succ n ih =>
    intro st h
    unfold pressureSteps
    by_cases hov : isOverWarnThreshold cfg st = true
    · rw [if_pos hov]
      cases hq : oldestEvictable st with
      | none => exact h
      | some q => exact ih (destroySession st q.fst) (absent_destroySession h q.fst)
    · rw [if_neg hov]
      exact h

/-- With unique keys, the entry of a found key is unique. -/
theorem nodup_key_unique {l : List (String × Session)}
    (hnd : (l.map Prod.fst).Nodup) {sid : String} {s : Session}
    (hm : (sid, s) ∈ l) : ∀ q ∈ l, q.fst = sid → q = (sid, s) := by
  induction l with
  | nil => intro q hq; simp at hq
  | cons p t ih =>
    simp only [List.map_cons, List.nodup_cons] at hnd
    obtain ⟨hnp, hnt⟩ := hnd
    intro q hq hqf
    rcases List.mem_cons.mp hq with he | hqt
    · rcases List.mem_cons.mp hm with he2 | hmt
      · rw [he, ← he2]
      · exfalso
        apply hnp
        have hps : p.fst = sid := by rw [← he]; exact hqf
        rw [hps]
        exact List.mem_map.mpr ⟨(sid, s), hmt, rfl⟩
    · rcases List.mem_cons.mp hm with he2 | hmt
      · exfalso
        apply hnp
        have hps : p.fst = sid := by rw [← he2]
        rw [hps]
        exact List.mem_map.mpr ⟨q, hqt, hqf⟩
      · exact ih hnt hmt q hqt hqf

/-- The expiry fold destroys an expired unpinned session it visits. -/
theorem foldExpiry_absent (cfg : Config) (now : ℕ) (sid : String) (s : Session)
    (hexp : expired cfg now s = true) (hpin : s.pinCount = 0) :
    ∀ (l : List (String × Session)) (acc : CoreState),
      (((sid, s) ∈ l ∧ (∀ q ∈ l, q.fst = sid → q = (sid, s)) ∧
          assocFind acc.registry sid = some s) ∨ Absent acc sid s) →
      Absent (l.foldl (expiryStep cfg now) acc) sid s := by
  intro l
  induction l with
  | nil =>
    intro acc h
    rcases h with ⟨hmem, _⟩ | habs
    · simp at hmem
    · exact habs
  | cons p t ih =>
    intro acc h
    rcases h with ⟨hmem, huniq, hfind⟩ | habs
    · by_cases hps : p = (sid, s)
      · have hstep : expiryStep cfg now acc p = destroySession acc sid := by
          unfold expiryStep
          rw [hps]
          rw [if_pos (by simp [hexp, hpin])]
        simp only [List.foldl_cons, hstep]
        exact absent_foldExpiry cfg now sid s t _ (absent_destroy_self hfind)
      · have hpf : p.fst ≠ sid := fun hc => hps (huniq p (List.mem_cons_self p t) hc)
        have hmem' : (sid, s) ∈ t := by
          rcases List.mem_cons.mp hmem with he | ht
          · exact absurd he.symm hps
          · exact ht
        have hfind' : assocFind (expiryStep cfg now acc p).registry sid = some s := by
          unfold expiryStep
          by_cases hc : (expired cfg now p.snd && decide (p.snd.pinCount = 0)) = true
          · rw [if_pos hc]
            unfold destroySession
            cases haf : assocFind acc.registry p.fst with
            | none => exact hfind
            | some t2 =>
              exact (assocFind_filter_ne (fun hc2 => hpf hc2.symm) acc.registry).trans hfind
          · rw [if_neg hc]
            exact hfind
        simp only [List.foldl_cons]
        exact ih (expiryStep cfg now acc p)
          (Or.inl ⟨hmem', fun q hq hqf => huniq q (List.mem_cons_of_mem p hq) hqf, hfind'⟩)
    · simp only [List.foldl_cons]
      exact ih (expiryStep cfg now acc p) (Or.inr (absent_expiryStep habs cfg now p))

/-- A sweep fully destroys an expired unpinned session. -/
theorem sweep_absent {cfg : Config} {now : ℕ} {st : CoreState} {sid : String} {s : Session}
    (hnd : (st.registry.map Prod.fst).Nodup)
    (hfind : assocFind st.registry sid = some s)
    (hexp : expired cfg now s = true) (hpin : s.pinCount = 0) :
    Absent (sweep cfg now st) sid s := by
  unfold sweep pressurePhase
  apply absent_pressureSteps
  unfold expiryPhase
  apply foldExpiry_absent cfg now sid s hexp hpin st.registry st
  exact Or.inl ⟨assocFind_mem hfind, nodup_key_unique hnd (assocFind_mem hfind), hfind⟩

/-- On a state without the session, `open` fails with `NotFound`. -/
theorem openFile_notFound {st : CoreState} {root sid fn : String}
    (hnone : assocFind st.registry sid = none)
    (hv : (validToken sid && validFilename fn) = true) :
    (openFile st root sid fn).snd = Except.error StorageError.notFound := by
  unfold openFile resolve
  rw [if_pos hv, hnone]

/-- Claim C3: a session that is unpinned and whose `last_touched_at` is
older than `RETENTION_SECONDS` when a sweep starts is, after that sweep,
absent from the registry with its artifact files absent from disk —
regardless of storage usage — and `open` on it thereafter fails with
`NotFound`.  The witness instantiates §8's scenario D
(stored at t = 0, `RETENTION_SECONDS = 3600`, sweep at t = 3601). -/
theorem c3_retention (cfg : Config) (now : ℕ) (st : CoreState)
    (root sid fn : String) (s : Session)
    (hnd : (st.registry.map Prod.fst).Nodup)
    (hfind : assocFind st.registry sid = some s)
    (hpin : s.pinCount = 0)
    (hexp : cfg.retentionSeconds < now - s.lastTouchedAt) :
    (∀ p ∈ (sweep cfg now st).registry, p.fst ≠ sid) ∧
    (∀ a ∈ s.artifacts, ∀ e ∈ (sweep cfg now st).disk, e.fst ≠ (sid, a.filename)) ∧
    ((validToken sid && validFilename fn) = true →
      (openFile (sweep cfg now st) root sid fn).snd =
        Except.error StorageError.notFound) := by
  have habs := sweep_absent hnd hfind (decide_eq_true hexp) hpin
  exact ⟨habs.1, habs.2, fun hv => openFile_notFound (assocFind_eq_none.mpr habs.1) hv⟩

/-- Witness for C3: §8's scenario D — stored at t = 0, swept at
t = 3601 with a one-hour retention, then `open` fails `NotFound`. -/
theorem c3_retention_witness :
    (∀ p ∈ (sweep cfgScenario 3601 stD).registry, p.fst ≠ sidD) ∧
    (∀ a ∈ (⟨0, 0, [⟨fD, 1000, 0⟩], 0⟩ : Session).artifacts,
      ∀ e ∈ (sweep cfgScenario 3601 stD).disk, e.fst ≠ (sidD, a.filename)) ∧
    ((validToken sidD && validFilename fD) = true →
      (openFile (sweep cfgScenario 3601 stD) upRoot sidD fD).snd =
        Except.error StorageError.notFound) :=
  c3_retention cfgScenario 3601 stD upRoot sidD fD ⟨0, 0, [⟨fD, 1000, 0⟩], 0⟩
    (by decide) (by decide) (by decide) (by decide)

end StorageCore

namespace StorageCore

/-- One atomic step that is not a release of `sid` keeps a pinned
session `sid` pinned, keeps its artifact list intact, and keeps its
files on disk. -/
theorem stepAct_pinned {st : CoreState} {sid : String} {s : Session} (a : Act)
    (hfind : assocFind st.registry sid = some s) (hpin : 0 < s.pinCount)
    (hnr : a ≠ Act.actRelease sid) :
    ∃ s', assocFind (stepAct st a).registry sid = some s' ∧ 0 < s'.pinCount ∧
      s'.artifacts = s.artifacts ∧
      (∀ e ∈ st.disk, e.fst.fst = sid → e ∈ (stepAct st a).disk) := by
  cases a with
  | actPin x =>
    simp only [stepAct]
    unfold pinSession
    by_cases hx : x = sid
    · subst hx
      simp only [hfind]
      exact ⟨⟨s.createdAt, s.lastTouchedAt, s.artifacts, s.pinCount + 1⟩,
        assocFind_updateFirst_self _ hfind, Nat.succ_pos _, rfl, fun e he _ => he⟩
    · cases haf : assocFind st.registry x with
      | none =>
        simp only [haf]
        exact ⟨s, hfind, hpin, rfl, fun e he _ => he⟩
      | some t =>
        simp only [haf]
        exact ⟨s, (assocFind_updateFirst_ne (fun hc => hx hc.symm) _ st.registry).trans hfind,
          hpin, rfl, fun e he _ => he⟩
  | actRelease x =>
    have hx : x ≠ sid := fun hc => hnr (by rw [hc])
    simp only [stepAct]
    unfold releaseSession
    cases haf : assocFind st.registry x with
    | none =>
      simp only [haf]
      exact ⟨s, hfind, hpin, rfl, fun e he _ => he⟩
    | some t =>
      simp only [haf]
      exact ⟨s, (assocFind_updateFirst_ne (fun hc => hx hc.symm) _ st.registry).trans hfind,
        hpin, rfl, fun e he _ => he⟩
  | actSweepAttempt cfg now x =>
    simp only [stepAct]
    unfold sweepAttempt
    by_cases hx : x = sid
    · subst hx
      simp only [hfind]
      have hdec : decide (s.pinCount = 0) = false := decide_eq_false (by omega)
      rw [hdec]
      simp only [Bool.false_and]
      rw [if_neg Bool.false_ne_true]
      exact ⟨s, hfind, hpin, rfl, fun e he _ => he⟩
    · cases haf : assocFind st.registry x with
      | none =>
        simp only [haf]
        exact ⟨s, hfind, hpin, rfl, fun e he _ => he⟩
      | some t =>
        simp only [haf]
        by_cases hc : (decide (t.pinCount = 0) &&
            (expired cfg now t || isOverWarnThreshold cfg st)) = true
        · rw [if_pos hc]
          unfold destroySession
          simp only [haf]
          refine ⟨s, (assocFind_filter_ne (fun hc2 => hx hc2.symm) st.registry).trans hfind,
            hpin, rfl, ?_⟩
          intro e he hes
          show e ∈ st.disk.filter _
          refine List.mem_filter.mpr ⟨he, ?_⟩
          refine decide_eq_true ?_
          intro hconj
          exact hx (hconj.1.symm.trans hes)
        · rw [if_neg hc]
          exact ⟨s, hfind, hpin, rfl, fun e he _ => he⟩

/-- A session pinned at the start of an interleaving that contains no
release of it stays pinned with its artifacts and files intact. -/
theorem runActs_pinned (sid : String) :
    ∀ (acts : List Act) (st : CoreState) (s : Session),
      assocFind st.registry sid = some s → 0 < s.pinCount →
      (∀ a ∈ acts, a ≠ Act.actRelease sid) →
      ∃ s', assocFind (runActs st acts).registry sid = some s' ∧ 0 < s'.pinCount ∧
        s'.artifacts = s.artifacts ∧
        (∀ e ∈ st.disk, e.fst.fst = sid → e ∈ (runActs st acts).disk) := by
  intro acts
  induction acts with
  | nil =>
    intro st s hf hp _
    exact ⟨s, hf, hp, rfl, fun e he _ => he⟩
  | cons a t ih =>
    intro st s hf hp hnr
    obtain ⟨s1, hf1, hp1, ha1, hd1⟩ := stepAct_pinned a hf hp (hnr a (List.mem_cons_self a t))
    obtain ⟨s2, hf2, hp2, ha2, hd2⟩ :=
      ih (stepAct st a) s1 hf1 hp1 (fun b hb => hnr b (List.mem_cons_of_mem a hb))
    exact ⟨s2, hf2, hp2, ha2.trans ha1,
      fun e he hes => hd2 e (hd1 e he hes) hes⟩

/-- An unpinned expired session is destroyed by the sweeper's attempt. -/
theorem sweepAttempt_destroys {cfg : Config} {now : ℕ} {st : CoreState}
    {sid : String} {s : Session}
    (hfind : assocFind st.registry sid = some s)
    (hpin : s.pinCount = 0) (hexp : expired cfg now s = true) :
    ∀ p ∈ (sweepAttempt cfg now st sid).registry, p.fst ≠ sid := by
  unfold sweepAttempt
  simp only [hfind]
  rw [if_pos (by simp [hpin, hexp])]
  exact (absent_destroy_self hfind).1

/-- Claim C2: in every interleaving of `open` micro-steps (pin/release)
with a concurrent sweep cycle's per-session destruction attempts, a
session whose `pin_count` is positive and which is not released during
the interleaving is never deleted or partially deleted: it stays
registered and pinned, its artifact list is unchanged, and its files
stay on disk (the sweeper skips it); once unpinned (and expired) a
later attempt destroys it, so it becomes eligible again. -/
theorem c2_pin_safety (st : CoreState) (sid : String) (s : Session)
    (acts : List Act) (cfg : Config) (now : ℕ) :
    ((assocFind st.registry sid = some s → 0 < s.pinCount →
      (∀ a ∈ acts, a ≠ Act.actRelease sid) →
      ∃ s', assocFind (runActs st acts).registry sid = some s' ∧ 0 < s'.pinCount ∧
        s'.artifacts = s.artifacts ∧
        (∀ e ∈ st.disk, e.fst.fst = sid → e ∈ (runActs st acts).disk))) ∧
    (assocFind st.registry sid = some s → s.pinCount = 0 → expired cfg now s = true →
      ∀ p ∈ (sweepAttempt cfg now st sid).registry, p.fst ≠ sid) :=
  ⟨fun hf hp hnr => runActs_pinned sid acts st s hf hp hnr,
   fun hf hp he => sweepAttempt_destroys hf hp he⟩

/-- Witness for C2: a pinned expired session D survives a sweep attempt;
the same session unpinned is destroyed by it. -/
theorem c2_pin_safety_witness :
    (∃ s', assocFind (runActs (pinSession stD sidD)
        [Act.actSweepAttempt cfgScenario 5000 sidD]).registry sidD = some s' ∧
      0 < s'.pinCount ∧
      s'.artifacts = (⟨0, 0, [⟨fD, 1000, 0⟩], 1⟩ : Session).artifacts ∧
      (∀ e ∈ (pinSession stD sidD).disk, e.fst.fst = sidD →
        e ∈ (runActs (pinSession stD sidD)
          [Act.actSweepAttempt cfgScenario 5000 sidD]).disk)) ∧
    (∀ p ∈ (sweepAttempt cfgScenario 5000 stD sidD).registry, p.fst ≠ sidD) := by
  refine ⟨(c2_pin_safety (pinSession stD sidD) sidD ⟨0, 0, [⟨fD, 1000, 0⟩], 1⟩
      [Act.actSweepAttempt cfgScenario 5000 sidD] cfgScenario 5000).1
      (by decide) (by decide) (by decide),
    (c2_pin_safety stD sidD ⟨0, 0, [⟨fD, 1000, 0⟩], 0⟩
      [] cfgScenario 5000).2 (by decide) (by decide) (by decide)⟩

end StorageCore

namespace StorageCore

/-- Unfolding one pressure iteration that evicts. -/
theorem pressureSteps_succ_over (cfg : Config) (n : ℕ) (st : CoreState)
    {q0 : String × Session}
    (hov : isOverWarnThreshold cfg st = true) (hq0 : oldestEvictable st = some q0) :
    pressureSteps cfg (n + 1) st =
      (q0 :: (pressureSteps cfg n (destroySession st q0.fst)).fst,
       (pressureSteps cfg n (destroySession st q0.fst)).snd) := by
  conv_lhs => rw [pressureSteps]
  rw [if_pos hov]
  simp [hq0]

/-- Unfolding one pressure iteration with nothing evictable. -/
theorem pressureSteps_succ_none (cfg : Config) (n : ℕ) (st : CoreState)
    (hov : isOverWarnThreshold cfg st = true) (hq0 : oldestEvictable st = none) :
    pressureSteps cfg (n + 1) st = ([], st) := by
  conv_lhs => rw [pressureSteps]
  rw [if_pos hov]
  simp [hq0]

/-- Unfolding one pressure iteration under the threshold. -/
theorem pressureSteps_not_over (cfg : Config) (n : ℕ) (st : CoreState)
    (hov : ¬ isOverWarnThreshold cfg st = true) :
    pressureSteps cfg (n + 1) st = ([], st) := by
  conv_lhs => rw [pressureSteps]
  rw [if_neg hov]

/-- Destruction folds one id at a time. -/
theorem destroyList_cons (st : CoreState) (a : String) (l : List String) :
    destroyList st (a :: l) = destroyList (destroySession st a) l := rfl

/-- The running minimum of `pickOlder` is an element of the scanned
list. -/
theorem foldl_pickOlder_mem :
    ∀ (t : List (String × Session)) (h : String × Session),
      t.foldl pickOlder h ∈ h :: t := by
  intro t
  induction t with
  | nil => intro h; exact List.mem_cons_self h []
  | cons p tl ih =>
    intro h
    simp only [List.foldl_cons]
    have hhp : pickOlder h p = h ∨ pickOlder h p = p := by
      unfold pickOlder
      by_cases hc : p.snd.lastTouchedAt < h.snd.lastTouchedAt
      · rw [if_pos hc]; exact Or.inr rfl
      · rw [if_neg hc]; exact Or.inl rfl
    rcases List.mem_cons.mp (ih (pickOlder h p)) with he | ht
    · rcases hhp with h1 | h1
      · rw [he, h1]
        exact List.mem_cons_self h (p :: tl)
      · rw [he, h1]
        exact List.mem_cons_of_mem h (List.mem_cons_self p tl)
    · exact List.mem_cons_of_mem h (List.mem_cons_of_mem p ht)

/-- The running minimum of `pickOlder` is a lower bound on the scanned
list. -/
theorem foldl_pickOlder_le :
    ∀ (t : List (String × Session)) (h q : String × Session), q ∈ h :: t →
      (t.foldl pickOlder h).snd.lastTouchedAt ≤ q.snd.lastTouchedAt := by
  intro t
  induction t with
  | nil =>
    intro h q hq
    rcases List.mem_cons.mp hq with he | hq2
    · rw [he]
      exact Nat.le_refl _
    · simp at hq2
  | cons p tl ih =>
    intro h q hq
    simp only [List.foldl_cons]
    have hle1 : (pickOlder h p).snd.lastTouchedAt ≤ h.snd.lastTouchedAt := by
      unfold pickOlder
      by_cases hc : p.snd.lastTouchedAt < h.snd.lastTouchedAt
      · rw [if_pos hc]; exact Nat.le_of_lt hc
      · rw [if_neg hc]
    have hle2 : (pickOlder h p).snd.lastTouchedAt ≤ p.snd.lastTouchedAt := by
      unfold pickOlder
      by_cases hc : p.snd.lastTouchedAt < h.snd.lastTouchedAt
      · rw [if_pos hc]
      · rw [if_neg hc]; omega
    rcases List.mem_cons.mp hq with he | hq2
    · rw [he]
      exact Nat.le_trans (ih (pickOlder h p) (pickOlder h p) (List.mem_cons_self _ _)) hle1
    · rcases List.mem_cons.mp hq2 with he2 | hq3
      · rw [he2]
        exact Nat.le_trans (ih (pickOlder h p) (pickOlder h p) (List.mem_cons_self _ _)) hle2
      · exact ih (pickOlder h p) q (List.mem_cons_of_mem _ hq3)

/-- The selected oldest evictable session is an unpinned registry
entry. -/
theorem oldestEvictable_mem {st : CoreState} {q : String × Session}
    (h : oldestEvictable st = some q) : q ∈ st.registry ∧ q.snd.pinCount = 0 := by
  unfold oldestEvictable at h
  cases hf : st.registry.filter evictableB with
  | nil =>
    rw [hf] at h
    exact Option.noConfusion h
  | cons hd tl =>
    rw [hf] at h
    injection h with h2
    have hmem : q ∈ hd :: tl := h2 ▸ foldl_pickOlder_mem tl hd
    rw [← hf] at hmem
    have hm2 := List.mem_filter.mp hmem
    exact ⟨hm2.1, by simpa [evictableB] using hm2.2⟩

/-- The selected oldest evictable session is least-recently-touched
among unpinned sessions. -/
theorem oldestEvictable_le {st : CoreState} {q : String × Session}
    (h : oldestEvictable st = some q) :
    ∀ p ∈ st.registry, p.snd.pinCount = 0 →
      q.snd.lastTouchedAt ≤ p.snd.lastTouchedAt := by
  intro p hp hpin
  unfold oldestEvictable at h
  cases hf : st.registry.filter evictableB with
  | nil =>
    rw [hf] at h
    exact Option.noConfusion h
  | cons hd tl =>
    rw [hf] at h
    injection h with h2
    have hpf : p ∈ hd :: tl := by
      rw [← hf]
      exact List.mem_filter.mpr ⟨hp, by simp [evictableB, hpin]⟩
    rw [← h2]
    exact foldl_pickOlder_le tl hd p hpf

/-- Destruction only removes registry entries. -/
theorem destroySession_registry_sublist (st : CoreState) (x : String) :
    List.Sublist (destroySession st x).registry st.registry := by
  unfold destroySession
  cases assocFind st.registry x with
  | none => exact List.Sublist.refl _
  | some s => exact List.filter_sublist _

/-- The pressure loop only removes registry entries. -/
theorem pressureSteps_sublist (cfg : Config) :
    ∀ (fuel : ℕ) (st : CoreState),
      List.Sublist (pressureSteps cfg fuel st).snd.registry st.registry := by
  intro fuel
  induction fuel with
  | zero => intro st; exact List.Sublist.refl _
  | succ n ih =>
    intro st
    by_cases hov : isOverWarnThreshold cfg st = true
    · cases hq0 : oldestEvictable st with
      | none =>
        rw [pressureSteps_succ_none cfg n st hov hq0]
      | some q0 =>
        rw [pressureSteps_succ_over cfg n st hov hq0]
        exact List.Sublist.trans (ih (destroySession st q0.fst))
          (destroySession_registry_sublist st q0.fst)
    · rw [pressureSteps_not_over cfg n st hov]

/-- Destroying a present session strictly shrinks the registry. -/
theorem destroySession_length_lt {st : CoreState} {q : String × Session}
    (hq : q ∈ st.registry) :
    (destroySession st q.fst).registry.length < st.registry.length := by
  unfold destroySession
  cases haf : assocFind st.registry q.fst with
  | none => exact absurd haf (assocFind_ne_none_of_mem hq)
  | some s =>
    exact List.length_filter_lt_length_iff_exists.mpr ⟨q, hq, by simp⟩

/-- The pressure loop destroys only sessions that were present and
unpinned. -/
theorem pressureSteps_destroyed_mem (cfg : Config) :
    ∀ (fuel : ℕ) (st : CoreState) (q : String × Session),
      q ∈ (pressureSteps cfg fuel st).fst →
      q ∈ st.registry ∧ q.snd.pinCount = 0 := by
  intro fuel
  induction fuel with
  | zero =>
    intro st q hq
    simp [pressureSteps] at hq
  | succ n ih =>
    intro st q hq
    by_cases hov : isOverWarnThreshold cfg st = true
    · cases hq0 : oldestEvictable st with
      | none =>
        rw [pressureSteps_succ_none cfg n st hov hq0] at hq
        simp at hq
      | some q0 =>
        rw [pressureSteps_succ_over cfg n st hov hq0] at hq
        rcases List.mem_cons.mp hq with he | hq1
        · rw [he]
          exact oldestEvictable_mem hq0
        · have hr := ih (destroySession st q0.fst) q hq1
          exact ⟨(destroySession_registry_sublist st q0.fst).subset hr.1, hr.2⟩
    · rw [pressureSteps_not_over cfg n st hov] at hq
      simp at hq

/-- The destruction trace is ascending in `last_touched_at`. -/
theorem pressureSteps_sorted (cfg : Config) :
    ∀ (fuel : ℕ) (st : CoreState),
      List.Pairwise (fun a b => a.snd.lastTouchedAt ≤ b.snd.lastTouchedAt)
        (pressureSteps cfg fuel st).fst := by
  intro fuel
  induction fuel with
  | zero =>
    intro st
    simp [pressureSteps]
  | succ n ih =>
    intro st
    by_cases hov : isOverWarnThreshold cfg st = true
    · cases hq0 : oldestEvictable st with
      | none =>
        rw [pressureSteps_succ_none cfg n st hov hq0]
        simp
      | some q0 =>
        rw [pressureSteps_succ_over cfg n st hov hq0]
        refine List.Pairwise.cons ?_ (ih (destroySession st q0.fst))
        intro b hb
        have hbm := pressureSteps_destroyed_mem cfg n (destroySession st q0.fst) b hb
        have hbst : b ∈ st.registry :=
          (destroySession_registry_sublist st q0.fst).subset hbm.1
        exact oldestEvictable_le hq0 b hbst hbm.2
    · rw [pressureSteps_not_over cfg n st hov]
      simp

/-- Everything destroyed is no younger than any surviving unpinned
session. -/
theorem pressureSteps_le_survivors (cfg : Config) :
    ∀ (fuel : ℕ) (st : CoreState) (q : String × Session),
      q ∈ (pressureSteps cfg fuel st).fst →
      ∀ p ∈ (pressureSteps cfg fuel st).snd.registry, p.snd.pinCount = 0 →
        q.snd.lastTouchedAt ≤ p.snd.lastTouchedAt := by
  intro fuel
  induction fuel with
  | zero =>
    intro st q hq
    simp [pressureSteps] at hq
  | succ n ih =>
    intro st q hq p hp hpin
    by_cases hov : isOverWarnThreshold cfg st = true
    · cases hq0 : oldestEvictable st with
      | none =>
        rw [pressureSteps_succ_none cfg n st hov hq0] at hq
        simp at hq
      | some q0 =>
        rw [pressureSteps_succ_over cfg n st hov hq0] at hq hp
        rcases List.mem_cons.mp hq with he | hq1
        · have hps : p ∈ (destroySession st q0.fst).registry :=
            (pressureSteps_sublist cfg n (destroySession st q0.fst)).subset hp
          have hpst : p ∈ st.registry :=
            (destroySession_registry_sublist st q0.fst).subset hps
          rw [he]
          exact oldestEvictable_le hq0 p hpst hpin
        · exact ih (destroySession st q0.fst) q hq1 p hp hpin
    · rw [pressureSteps_not_over cfg n st hov] at hq
      simp at hq

/-- With enough fuel the loop stops only under the threshold or with
nothing evictable left. -/
theorem pressureSteps_stop (cfg : Config) :
    ∀ (fuel : ℕ) (st : CoreState), st.registry.length ≤ fuel →
      isOverWarnThreshold cfg (pressureSteps cfg fuel st).snd = false ∨
        oldestEvictable (pressureSteps cfg fuel st).snd = none := by
  intro fuel
  induction fuel with
  | zero =>
    intro st hlen
    have hreg : st.registry = [] := List.length_eq_zero.mp (Nat.le_zero.mp hlen)
    right
    show oldestEvictable st = none
    unfold oldestEvictable
    rw [hreg]
    rfl
  | succ n ih =>
    intro st hlen
    by_cases hov : isOverWarnThreshold cfg st = true
    · cases hq0 : oldestEvictable st with
      | none =>
        rw [pressureSteps_succ_none cfg n st hov hq0]
        right
        exact hq0
      | some q0 =>
        rw [pressureSteps_succ_over cfg n st hov hq0]
        have hlt := destroySession_length_lt (oldestEvictable_mem hq0).1
        exact ih (destroySession st q0.fst) (by omega)
    · rw [pressureSteps_not_over cfg n st hov]
      left
      cases hb : isOverWarnThreshold cfg st with
      | true => exact absurd hb hov
      | false => rfl

/-- Every destruction of the trace happened from an over-threshold
state. -/
theorem pressureSteps_minimal (cfg : Config) :
    ∀ (fuel : ℕ) (st : CoreState) (k : ℕ),
      k < (pressureSteps cfg fuel st).fst.length →
      isOverWarnThreshold cfg
        (destroyList st (((pressureSteps cfg fuel st).fst.map Prod.fst).take k)) = true := by
  intro fuel
  induction fuel with
  | zero =>
    intro st k hk
    simp [pressureSteps] at hk
  | succ n ih =>
    intro st k hk
    by_cases hov : isOverWarnThreshold cfg st = true
    · cases hq0 : oldestEvictable st with
      | none =>
        rw [pressureSteps_succ_none cfg n st hov hq0] at hk
        simp at hk
      | some q0 =>
        rw [pressureSteps_succ_over cfg n st hov hq0] at hk ⊢
        cases k with
        | zero =>
          simpa [destroyList] using hov
        | succ j =>
          simp only [List.map_cons, List.take_succ_cons]
          rw [destroyList_cons]
          have hk2 : j < (pressureSteps cfg n (destroySession st q0.fst)).fst.length := by
            simp only [List.length_cons] at hk
            omega
          exact ih (destroySession st q0.fst) j hk2
    · rw [pressureSteps_not_over cfg n st hov] at hk
      simp at hk

end StorageCore

namespace StorageCore

/-- The final pressure state is the fold of the destruction trace. -/
theorem pressureSteps_destroyList (cfg : Config) :
    ∀ (fuel : ℕ) (st : CoreState),
      (pressureSteps cfg fuel st).snd =
        destroyList st ((pressureSteps cfg fuel st).fst.map Prod.fst) := by
  intro fuel
  induction fuel with
  | zero => intro st; rfl
  | succ n ih =>
    intro st
    by_cases hov : isOverWarnThreshold cfg st = true
    · cases hq0 : oldestEvictable st with
      | none =>
        rw [pressureSteps_succ_none cfg n st hov hq0]
        rfl
      | some q0 =>
        rw [pressureSteps_succ_over cfg n st hov hq0]
        show (pressureSteps cfg n (destroySession st q0.fst)).snd =
          destroyList st (List.map Prod.fst
            (q0 :: (pressureSteps cfg n (destroySession st q0.fst)).fst))
        rw [List.map_cons, destroyList_cons]
        exact ih (destroySession st q0.fst)
    · rw [pressureSteps_not_over cfg n st hov]
      rfl

/-- Claim C5: in the pressure phase the sweeper destroys only non-pinned
sessions, in ascending `last_touched_at` order (the destruction trace is
sorted, and every destroyed session is no younger than any surviving
evictable one), every destruction happens from an over-threshold state
(so the loop stops as soon as usage is back under the warn line), and
the loop ends under the threshold or with no evictable session left;
the final state is exactly the fold of the destruction trace.  In §8's
concrete scenario (1 MB cap, 80 % warn line, A/B/C of 300 KB touched at
t = 0/10/20, sweep at t = 30 with no expiries) exactly session A is
evicted: B and C remain and usage drops to 600 KB. -/
theorem c5_pressure_eviction (cfg : Config) (st : CoreState) :
    (∀ q ∈ (pressureSteps cfg st.registry.length st).fst,
      q ∈ st.registry ∧ q.snd.pinCount = 0) ∧
    List.Pairwise (fun a b => a.snd.lastTouchedAt ≤ b.snd.lastTouchedAt)
      (pressureSteps cfg st.registry.length st).fst ∧
    (∀ q ∈ (pressureSteps cfg st.registry.length st).fst,
      ∀ p ∈ (pressurePhase cfg st).registry, p.snd.pinCount = 0 →
        q.snd.lastTouchedAt ≤ p.snd.lastTouchedAt) ∧
    (isOverWarnThreshold cfg (pressurePhase cfg st) = false ∨
      oldestEvictable (pressurePhase cfg st) = none) ∧
    (∀ k, k < (pressureSteps cfg st.registry.length st).fst.length →
      isOverWarnThreshold cfg (destroyList st
        (((pressureSteps cfg st.registry.length st).fst.map Prod.fst).take k)) = true) ∧
    pressurePhase cfg st =
      destroyList st ((pressureSteps cfg st.registry.length st).fst.map Prod.fst) ∧
    ((sweep cfgScenario 30 stABC).registry.map Prod.fst = [sidB, sidC] ∧
      (sweep cfgScenario 30 stABC).total = 600000 ∧
      assocFind (sweep cfgScenario 30 stABC).registry sidA = none) :=
  ⟨fun q hq => pressureSteps_destroyed_mem cfg _ st q hq,
   pressureSteps_sorted cfg _ st,
   fun q hq p hp hpin => pressureSteps_le_survivors cfg _ st q hq p hp hpin,
   pressureSteps_stop cfg _ st (Nat.le_refl _),
   fun k hk => pressureSteps_minimal cfg _ st k hk,
   pressureSteps_destroyList cfg _ st,
   by decide, by decide, by decide⟩

/-- Witness for C5 at the §8 A/B/C scenario state: the destroyed entry
is session A, present and unpinned, and the first destruction happened
from an over-threshold state. -/
theorem c5_pressure_eviction_witness :
    ((sidA, (⟨0, 0, [⟨fA, 300000, 0⟩], 0⟩ : Session)) ∈ stABC.registry ∧
      (⟨0, 0, [⟨fA, 300000, 0⟩], 0⟩ : Session).pinCount = 0) ∧
    isOverWarnThreshold cfgScenario (destroyList stABC
      (((pressureSteps cfgScenario stABC.registry.length stABC).fst.map
        Prod.fst).take 0)) = true := by
  refine ⟨(c5_pressure_eviction cfgScenario stABC).1
      (sidA, ⟨0, 0, [⟨fA, 300000, 0⟩], 0⟩) ?_,
    (c5_pressure_eviction cfgScenario stABC).2.2.2.2.1 0 ?_⟩
  · decide
  · decide

end StorageCore
